import Mathlib

/-!
# Verification of the xadb decoding layer

A shallow embedding of the decoding layer of the `xadb` terminal companion
tool: the device enumeration-line parser (`src/devices.rs`,
`AdbDevice::parse`), the long-form text logcat decoder
(`src/commands/adb/logcat.rs`, `LogcatStringDecoder`), and the binary
logcat decoder (`LogcatBinaryDecoder`).

Byte buffers are modelled as `List Nat` (each element a byte value `< 256`);
decoded text (Rust `String`) is modelled as `List Nat` of Unicode code
points.  Rust panics (out-of-bounds indexing, `unwrap`/`expect` on `None`,
`todo!()`) are modelled by explicit `panic` outcome constructors; `assert!`
failures in the binary decoder get their own `assertFail` constructor so
the validation aborts can be distinguished from other panics.
-/

/-- Byte strings: each element is a byte value (0–255). -/
abbrev Bytes := List Nat

/-- Convenience: the bytes (equivalently, code points) of an ASCII string
literal used in concrete inputs and outputs. -/
def strBytes (s : String) : Bytes := s.toList.map Char.toNat

/-! ## Character classes

These model the byte/character classes used by the source: the ASCII POSIX
classes of the `regex` crate (`[[:xdigit:]]`, `[[:alpha:]]`, `[[:alnum:]]`),
the crate's Unicode `\s`, and the `u8::is_ascii_*` predicates used by the
logcat decoders. -/

/-- ASCII decimal digit (`is_ascii_digit`, regex `\d` restricted to ASCII
inputs; device lines are ASCII). -/
def isDigitB (c : Nat) : Bool := 48 ≤ c && c ≤ 57

/-- POSIX `[[:xdigit:]]` (ASCII-only in the `regex` crate). -/
def isXdigitB (c : Nat) : Bool :=
  (48 ≤ c && c ≤ 57) || (65 ≤ c && c ≤ 70) || (97 ≤ c && c ≤ 102)

/-- POSIX `[[:alpha:]]` (ASCII-only in the `regex` crate). -/
def isAlphaB (c : Nat) : Bool := (65 ≤ c && c ≤ 90) || (97 ≤ c && c ≤ 122)

/-- POSIX `[[:alnum:]]` (ASCII-only in the `regex` crate). -/
def isAlnumB (c : Nat) : Bool := isAlphaB c || isDigitB c

/-- The `regex` crate's Unicode `\s` (`White_Space` property). -/
def isWsB (c : Nat) : Bool :=
  (9 ≤ c && c ≤ 13) || c = 32 || c = 133 || c = 160 || c = 5760 ||
  (8192 ≤ c && c ≤ 8202) || c = 8232 || c = 8233 || c = 8239 || c = 8287 ||
  c = 12288

/-- The devpath character class of the enumeration regex:
`[[[:alnum:]]\-:]`. -/
def isDevpathB (c : Nat) : Bool := isAlnumB c || c = 45 || c = 58

/-- Rust `u8::is_ascii_alphanumeric() || c == b'_'`, the token class used by
the text logcat decoder for the uid/pid token. -/
def isWordB (c : Nat) : Bool := isAlnumB c || c = 95

/-! ## The enumeration-line regex (`AdbDevice::parse`)

The source compiles (with `(?x)`, so literal pattern whitespace is
ignored):

```
^(?P<serial>[[:xdigit:]]+)\s+(?P<connection_state>[[:alpha:]]+)\s
(?P<devpath>[[[:alnum:]]\-:]+)
(?P<adb_expanded>\s product:(?P<product>.+)\s model:(?P<model>.+)\s
 device:(?P<device>.+)\s transport_id:(?P<transport_id>\d+))?
```

and calls `RE.captures(line)`.  Because the pattern is anchored with `^`
and has no end anchor, and every pair of adjacent repeated classes in the
mandatory prefix is disjoint (`xdigit`/`\s`, `\s`/`alpha`, `alpha`/`\s`,
`\s`/devpath, devpath/`\s`), the crate's leftmost-first (Perl-like) match
is computed by plain greedy spans for the prefix, followed by an attempt
at the optional `adb_expanded` group (whose failure does not fail the
whole match).  Inside the optional group the `.+` captures are greedy with
backtracking, which we implement by trying the longest split first. -/

/-- Greedy span: longest prefix satisfying `p`, plus the rest. -/
def spanB (p : Nat → Bool) : Bytes → Bytes × Bytes
  | [] => ([], [])
  | c :: rest =>
    if p c then
      let (a, b) := spanB p rest
      (c :: a, b)
    else ([], c :: rest)

/-- `.` of the `regex` crate (without `s` flag): any character except
`\n`. -/
def isDotB (c : Nat) : Bool := c ≠ 10

/-- Does `l` start with prefix `p`? -/
def startsWithB : Bytes → Bytes → Bool
  | [], _ => true
  | _ :: _, [] => false
  | p :: ps, c :: cs => p = c && startsWithB ps cs

/-- Captures of the enumeration-line regex. -/
structure LineCaptures where
  serial : Bytes
  connection_state : Bytes
  devpath : Bytes
  /-- `product`, `model`, `device`, `transport_id` of the optional
  `adb_expanded` group, in order; `none` when the group did not
  participate in the match. -/
  adb_expanded : Option (Bytes × Bytes × Bytes × Bytes)
  deriving Repr, DecidableEq

/-- Greedy-with-backtracking match of `(.+)` followed by literal `sep`
followed by a continuation `k`, trying the longest capture first, as the
`regex` crate's leftmost-first semantics does.  `n` counts down the length
of the attempted capture. -/
def greedyDotPlus (sep : Bytes) (k : Bytes → Option α) (l : Bytes) :
    Nat → Option (Bytes × α)
  | 0 => none
  | n + 1 =>
    let cand := l.take (n + 1)
    if cand.all isDotB && startsWithB sep (l.drop (n + 1)) then
      match k ((l.drop (n + 1)).drop sep.length) with
      | some r => some (cand, r)
      | none => greedyDotPlus sep k l n
    else greedyDotPlus sep k l n

/-- Attempt to match the optional `adb_expanded` group
`\s product:(.+)\s model:(.+)\s device:(.+)\s transport_id:(\d+)` at the
start of `l`.  `\s` here is a single whitespace character; the final
`(\d+)` is greedy and nothing follows it inside the group. -/
def matchExpanded (l : Bytes) : Option (Bytes × Bytes × Bytes × Bytes) :=
  match l with
  | [] => none
  | c :: rest =>
    if isWsB c && startsWithB (strBytes "product:") rest then
      let r1 := rest.drop 8
      let matchTid : Bytes → Option Bytes := fun r =>
        match spanB isDigitB r with
        | ([], _) => none
        | (d :: ds, _) => some (d :: ds)
      let matchDevice : Bytes → Option (Bytes × Bytes) := fun r =>
        greedyDotPlus (strBytes " transport_id:") matchTid r r.length
      let matchModel : Bytes → Option (Bytes × Bytes × Bytes) := fun r =>
        greedyDotPlus (strBytes " device:") matchDevice r r.length
      match greedyDotPlus (strBytes " model:") matchModel r1 r1.length with
      | some (p, m, d, t) => some (p, m, d, t)
      | none => none
    else none

/-- `RE.captures(line)` for the enumeration-line regex: `some` captures on
a match, `none` when the line does not match. -/
def lineCaptures (line : Bytes) : Option LineCaptures :=
  match spanB isXdigitB line with
  | ([], _) => none
  | (serial, r1) =>
    match spanB isWsB r1 with
    | ([], _) => none
    | (_, r2) =>
      match spanB isAlphaB r2 with
      | ([], _) => none
      | (state, r3) =>
        match r3 with
        | [] => none
        | c :: r4 =>
          if isWsB c then
            match spanB isDevpathB r4 with
            | ([], _) => none
            | (devpath, r5) =>
              some { serial := serial, connection_state := state,
                     devpath := devpath, adb_expanded := matchExpanded r5 }
          else none

/-- Outcome of `AdbDevice::parse`.  The function can return
`Err(Error::Parse(line))`, or panic; the `Ok` return in the source is
commented out and replaced by `todo!()`, so no `ok` outcome is
reachable — we keep the constructor to state what the claim expects. -/
inductive ParseOutcome where
  /-- `Ok(AdbDevice { .. })` — present in the type for completeness;
  the source's `Ok` return is commented out. -/
  | ok (serial connection_state devpath : Bytes)
      (live : Option (Bytes × Bytes × Bytes × Nat))
  /-- `Err(Error::Parse(line))`. -/
  | parseError (line : Bytes)
  /-- A Rust panic: here, the unconditional `todo!()` reached whenever the
  regex matches (or the `expect` on `usize::from_str_radix`). -/
  | panic
  deriving Repr, DecidableEq

/-- `usize::from_str_radix(digits, 10)`: fails (→ `expect` panic) on
overflow past `usize::MAX`; the captured group is `\d+` so it is nonempty
and all digits. -/
def digitsToNat : Bytes → Nat :=
  List.foldl (fun acc c => acc * 10 + (c - 48)) 0

/-- `AdbDevice::parse` (`src/devices.rs:141-193`): runs the regex; a
non-match returns `Err(Error::Parse(line))`; on a match the function
extracts the captures and then unconditionally executes `todo!()`, i.e.
panics (if `transport_id` overflows `usize` the earlier `expect` panics
first — either way the outcome is a panic). -/
def AdbDevice.parse (line : Bytes) : ParseOutcome :=
  match lineCaptures line with
  | none => .parseError line
  | some _ => .panic

/-- Does an outcome of `AdbDevice.parse` denote `Err(Error::Parse(_))`? -/
def ParseOutcome.isParseError : ParseOutcome → Bool
  | .parseError _ => true
  | _ => false

/-! ## Shared text machinery: UTF-8, trimming, digit parsing

Models of the Rust standard-library routines used by the logcat decoders:
`String::from_utf8_lossy` (WHATWG "substitution of maximal subparts", which
is what Rust implements), `str::trim`, `str::trim_end_matches`, and
`str::parse::<u32>`. -/

/-- One step of `String::from_utf8_lossy` decoding: given the first byte
and the rest of the input, the decoded code point (U+FFFD = 65533 for a
maximal invalid subpart) and the remaining input. -/
def utf8Step (b : Nat) (rest : Bytes) : Nat × Bytes :=
  if b < 128 then (b, rest)
  else if 194 ≤ b && b ≤ 223 then
    match rest with
    | b2 :: rest2 =>
      if 128 ≤ b2 && b2 ≤ 191 then ((b - 192) * 64 + (b2 - 128), rest2)
      else (65533, rest)
    | [] => (65533, [])
  else if 224 ≤ b && b ≤ 239 then
    match rest with
    | b2 :: rest2 =>
      if (if b = 224 then 160 else 128) ≤ b2 &&
          b2 ≤ (if b = 237 then 159 else 191) then
        match rest2 with
        | b3 :: rest3 =>
          if 128 ≤ b3 && b3 ≤ 191 then
            ((b - 224) * 4096 + (b2 - 128) * 64 + (b3 - 128), rest3)
          else (65533, rest2)
        | [] => (65533, [])
      else (65533, rest)
    | [] => (65533, [])
  else if 240 ≤ b && b ≤ 244 then
    match rest with
    | b2 :: rest2 =>
      if (if b = 240 then 144 else 128) ≤ b2 &&
          b2 ≤ (if b = 244 then 143 else 191) then
        match rest2 with
        | b3 :: rest3 =>
          if 128 ≤ b3 && b3 ≤ 191 then
            match rest3 with
            | b4 :: rest4 =>
              if 128 ≤ b4 && b4 ≤ 191 then
                ((b - 240) * 262144 + (b2 - 128) * 4096 + (b3 - 128) * 64 +
                  (b4 - 128), rest4)
              else (65533, rest3)
            | [] => (65533, [])
          else (65533, rest2)
        | [] => (65533, [])
      else (65533, rest)
    | [] => (65533, [])
  else (65533, rest)

/-- Fuel-driven loop of `utf8LossyDecode`; each step consumes at least one
byte, so fuel equal to the input length always suffices and the
fuel-exhausted arm is unreachable.  (Fuel keeps the recursion structural,
so concrete inputs evaluate definitionally.) -/
def utf8LossyGo : Nat → Bytes → List Nat
  | _, [] => []
  | 0, _ :: _ => []
  | n + 1, b :: rest =>
    (utf8Step b rest).1 :: utf8LossyGo n (utf8Step b rest).2

/-- `String::from_utf8_lossy`: decode UTF-8, replacing each maximal
invalid subpart by one U+FFFD, per the WHATWG algorithm Rust implements.
Output is a list of Unicode code points. -/
def utf8LossyDecode (l : Bytes) : List Nat := utf8LossyGo l.length l

/-- `str::trim` on a decoded string: remove leading and trailing Unicode
whitespace code points (`char::is_whitespace` is the same `White_Space`
set as `isWsB`). -/
def trimCp (l : List Nat) : List Nat :=
  ((l.dropWhile isWsB).reverse.dropWhile isWsB).reverse

/-- `str::parse::<u32>()` on a nonempty all-digit slice: the numeric value,
or `none` (→ `unwrap` panic) on overflow past `u32::MAX`. -/
def u32FromDigits (ds : Bytes) : Option Nat :=
  if ds ≠ [] && ds.all isDigitB && digitsToNat ds < 4294967296 then
    some (digitsToNat ds)
  else none

/-! ## The text logcat decoder (`LogcatStringDecoder`)

`src/commands/adb/logcat.rs:106-432`.  The decoder is a struct with an
error flag and an accumulator of unknown bytes; `decode` consumes from a
`BytesMut` buffer and yields at most one `LogItem`.  Out-of-bounds buffer
indexing (`src[i]` with `i ≥ src.len()`) panics in Rust and is modelled by
the `panic` outcome. -/

/-- Decoded log levels (`LogLevel` in the source). -/
inductive LogLevel where
  | Other (b : Nat)
  | Verbose
  | Debug
  | Info
  | Warning
  | Error
  | Fatal
  deriving Repr, DecidableEq

/-- `LogLongMessage`: one structured long-form entry.  `timestamp` is the
validated 35-byte timestamp text (the `chrono` value is modelled by its
source bytes); `uid`/`tag` are code-point strings; `message` is the raw
byte vector, as in the source (`Vec<u8>`). -/
structure LogLongMessage where
  timestamp : Bytes
  uid : Option (List Nat)
  pid : Nat
  tid : Nat
  level : LogLevel
  tag : List Nat
  message : Bytes
  deriving Repr, DecidableEq

/-- `LogItem` of the source. -/
inductive LogItem where
  | LogBeginning (name : List Nat)
  | LogMessage (m : LogLongMessage)
  | LogUnknown (raw : Bytes)
  deriving Repr, DecidableEq

/-- The decoder struct: error-recovery flag plus accumulated unknown
bytes. -/
structure LogcatStringDecoder where
  is_in_error_state : Bool
  error_data : Bytes
  deriving Repr, DecidableEq

/-- Outcome of one `decode` call: an emitted item, `Ok(None)` ("no item
yet"), or a Rust panic.  `item`/`needMore` carry the decoder state and the
remaining (unconsumed) buffer after the call. -/
inductive TextOutcome where
  | item (it : LogItem) (st : LogcatStringDecoder) (buf : Bytes)
  | needMore (st : LogcatStringDecoder) (buf : Bytes)
  | panic
  deriving Repr, DecidableEq

/-- The `windows(3)` scan of `scan_out_error_state`: index of the first
`"\n\n"` immediately followed by `'-'` or `'['`, if any window matches. -/
def findResync : Bytes → Option Nat
  | a :: b :: c :: rest =>
    if a = 10 && b = 10 && (c = 45 || c = 91) then some 0
    else (findResync (b :: c :: rest)).map (· + 1)
  | _ => none

namespace LogcatStringDecoder

/-- `scan_out_error_state` (`logcat.rs:122-147`): on a resync point, emit
the accumulator plus the bytes before the blank line as `LogUnknown`,
consume through the two newlines and leave the error state; otherwise move
the whole buffer into the accumulator and ask for more data. -/
def scan_out_error_state (self : LogcatStringDecoder) (src : Bytes) :
    TextOutcome :=
  match findResync src with
  | some i =>
      .item (.LogUnknown (self.error_data ++ src.take i))
        ⟨false, []⟩ (src.drop (i + 2))
  | none =>
      .needMore ⟨self.is_in_error_state, self.error_data ++ src⟩ []

/-- `enter_error_state` (`logcat.rs:149-152`). -/
def enter_error_state (self : LogcatStringDecoder) (src : Bytes) :
    TextOutcome :=
  scan_out_error_state ⟨true, self.error_data⟩ src

end LogcatStringDecoder

/-- `EXPECTED_BEGINNING_OF_BUFFER`, 23 bytes. -/
def beginningMarker : Bytes := strBytes "--------- beginning of "

/-- The ring-buffer-name loop of `decode_beginning_of_ring_buffer`:
accumulate alphanumeric/underscore bytes; a newline emits the item; any
other byte enters error recovery; running out of buffered bytes asks for
more (state and buffer untouched). -/
def ringNameLoop (self : LogcatStringDecoder) (src : Bytes)
    (acc : List Nat) : Bytes → TextOutcome
  | [] => .needMore self src
  | c :: rest =>
    if isWordB c then ringNameLoop self src (acc ++ [c]) rest
    else if c = 10 then
      .item (.LogBeginning (utf8LossyDecode acc)) self rest
    else self.enter_error_state src

/-- `decode_beginning_of_ring_buffer` (`logcat.rs:155-190`). -/
def LogcatStringDecoder.decode_beginning_of_ring_buffer
    (self : LogcatStringDecoder) (src : Bytes) : TextOutcome :=
  if src.length < 23 then .needMore self src
  else if ¬ startsWithB beginningMarker src then self.enter_error_state src
  else ringNameLoop self src [] (src.drop 23)

/-- `while src[i] == …` scanning: advance past bytes satisfying `p`;
`none` models the out-of-bounds read (panic) when the run reaches the end
of the buffer. -/
def scanWhileP (p : Nat → Bool) : Bytes → Option Bytes
  | [] => none
  | c :: rest => if p c then scanWhileP p rest else some (c :: rest)

/-- Like `scanWhileP` but also returns the scanned-over segment (the
source slices it out of the buffer afterwards, e.g. the uid/pid/tid
digit runs). -/
def spanScan (p : Nat → Bool) : Bytes → Option (Bytes × Bytes)
  | [] => none
  | c :: rest =>
    if p c then (spanScan p rest).map (fun ab => (c :: ab.1, ab.2))
    else some ([], c :: rest)

/-- Model of `DateTime::parse_from_str(ts, "%Y-%m-%d %H:%M:%S.%9f %z")`
applied to the 35-byte slice the source cuts out: 4-digit year, dashed
date, `HH:MM:SS`, a dot and exactly 9 fractional digits, and a `±HHMM`
offset, with in-range field values.  The source first runs
`str::from_utf8` on the slice; since every byte this check accepts is
ASCII, the check subsumes UTF-8 validity, and a slice failing either step
sends the decoder to error recovery in both the source and the model. -/
def bAt (l : Bytes) (i : Nat) : Nat := (l.get? i).getD 256

/-- Two decimal digits at positions `i`, `i+1`, as a number. -/
def twoDigits (l : Bytes) (i : Nat) : Option Nat :=
  if isDigitB (bAt l i) && isDigitB (bAt l (i + 1)) then
    some ((bAt l i - 48) * 10 + (bAt l (i + 1) - 48))
  else none

/-- Days in a month under the proleptic Gregorian calendar that chrono's
`NaiveDate` uses: February has 29 days in leap years (divisible by 4 and,
for century years, by 400), the usual 28/30/31 otherwise. -/
def daysInMonth (y m : Nat) : Nat :=
  if m = 2 then
    if y % 4 = 0 && (y % 100 ≠ 0 || y % 400 = 0) then 29 else 28
  else if m = 4 || m = 6 || m = 9 || m = 11 then 30
  else 31

/-- See `bAt`: the timestamp validation performed by
`DateTime::parse_from_str(timestamp, "%Y-%m-%d %H:%M:%S.%9f %z")` at
`logcat.rs:216-219` on the 35-byte slice: the fixed punctuation, digit
runs and field ranges, including chrono's calendar resolution of the
year/month/day (a day must exist in its month, leap years included) and
its acceptance of a leap second (`%S` parses `00`-`60`). -/
def chronoOK (b : Bytes) : Bool :=
  b.length = 35 &&
  (b.take 4).all isDigitB &&
  bAt b 4 = 45 &&
  (match twoDigits b 5 with | some m => 1 ≤ m && m ≤ 12 | none => false) &&
  bAt b 7 = 45 &&
  (match twoDigits b 5, twoDigits b 8 with
   | some m, some d => 1 ≤ d && d ≤ daysInMonth (digitsToNat (b.take 4)) m
   | _, _ => false) &&
  bAt b 10 = 32 &&
  (match twoDigits b 11 with | some h => h ≤ 23 | none => false) &&
  bAt b 13 = 58 &&
  (match twoDigits b 14 with | some m => m ≤ 59 | none => false) &&
  bAt b 16 = 58 &&
  (match twoDigits b 17 with | some s => s ≤ 60 | none => false) &&
  bAt b 19 = 46 &&
  ((b.drop 20).take 9).all isDigitB &&
  bAt b 29 = 32 &&
  (bAt b 30 = 43 || bAt b 30 = 45) &&
  (match twoDigits b 31 with | some h => h ≤ 23 | none => false) &&
  (match twoDigits b 33 with | some m => m ≤ 59 | none => false)

/-- Level-character mapping of the text decoder (`logcat.rs:325-333`). -/
def levelOfChar (c : Nat) : LogLevel :=
  if c = 86 then .Verbose
  else if c = 68 then .Debug
  else if c = 73 then .Info
  else if c = 87 then .Warning
  else if c = 69 then .Error
  else if c = 70 then .Fatal
  else .Other c

/-- `" ]\n"`, the literal header terminator. -/
def headerEnd : Bytes := strBytes " ]\n"

/-- The tag scan (`logcat.rs:348-355`): `while i < len-3 && src[i..i+3] ≠
" ]\n" { i += 1 }`; exiting at exactly `len-3` asks for more data
(`none`); otherwise returns the scanned-over tag bytes and the rest (which
starts with `" ]\n"` when the terminator was found, and is shorter than 3
bytes when the cursor jumped past `len-3`). -/
def findHdrEnd (acc : Bytes) : Bytes → Option (Bytes × Bytes)
  | [] => some (acc, [])
  | c :: rl =>
    if rl.length + 1 > 3 && ¬ decide ((c :: rl).take 3 = headerEnd) then
      findHdrEnd (acc ++ [c]) rl
    else if rl.length + 1 = 3 then none
    else some (acc, c :: rl)

/-- The message scan (`logcat.rs:362-384`): starting at the message, look
for `"\n\n"` immediately followed by a beginning-of-ring-buffer marker or
a `"[ "` header; each iteration first checks that at least `2 + 23` bytes
remain (otherwise ask for more data: `none`).  On success returns the
message bytes and the rest starting at the `"\n\n"`.  `resyncHitB` is the
per-position match test. -/
def resyncHitB : Bytes → Bool
  | a :: b :: rest =>
    a = 10 && b = 10 &&
      (startsWithB beginningMarker rest || startsWithB (strBytes "[ ") rest)
  | _ => false

/-- See `resyncHitB`; the scan itself. -/
def findMsgEnd (acc : Bytes) (rm : Bytes) : Option (Bytes × Bytes) :=
  if rm.length < 25 then none
  else
    match rm with
    | a :: b :: rest =>
      if resyncHitB (a :: b :: rest) then some (acc, a :: b :: rest)
      else findMsgEnd (acc ++ [a]) (b :: rest)
    | _ => none

/-- The tail of `decode_log` after the uid/pid/tid tokens are scanned
(`logcat.rs:293-401`): `parse().unwrap()` the pid and tid, check the
single space, read the level character, check the `'/'`, scan the tag and
the message, and emit.  `after` is the buffer suffix at the current
cursor. -/
def finishHeader (self : LogcatStringDecoder) (src : Bytes)
    (tsB : Bytes) (uid : Option Bytes) (pidDigits tidDigits : Bytes)
    (after : Bytes) : TextOutcome :=
  match u32FromDigits pidDigits, u32FromDigits tidDigits with
  | some pid, some tid =>
    match after with
    | [] => .panic
    | cSp :: rA =>
      if cSp ≠ 32 then self.enter_error_state src
      else
        match rA with
        | [] => .panic
        | cLvl :: rB =>
          match rB with
          | [] => .panic
          | cSl :: rC =>
            if cSl ≠ 47 then self.enter_error_state src
            else
              match findHdrEnd [] rC with
              | none => .needMore self src
              | some (tagB, rl) =>
                match findMsgEnd [] (rl.drop 3) with
                | none => .needMore self src
                | some (msg, rmEnd) =>
                  .item (.LogMessage
                    { timestamp := tsB
                      uid := uid.map utf8LossyDecode
                      pid := pid
                      tid := tid
                      level := levelOfChar cLvl
                      tag := trimCp (utf8LossyDecode tagB)
                      message := msg })
                    self (rmEnd.drop 2)
  | _, _ => .panic

/-- `decode_log` (`logcat.rs:193-402`): the structured-entry parser.
`MINIMAL_LOG_LEN` is 64 and `DATE_FORMAT_LEN` is 35.  All the unguarded
`src[i]` header reads of the source are modelled by head patterns whose
empty case is `panic`. -/
def LogcatStringDecoder.decode_log (self : LogcatStringDecoder)
    (src : Bytes) : TextOutcome :=
  if src.length < 64 then .needMore self src
  else if src.take 2 ≠ strBytes "[ " then self.enter_error_state src
  else if ¬ chronoOK ((src.drop 2).take 35) then self.enter_error_state src
  else
    match src.drop 37 with
    | [] => .panic
    | c37 :: r37 =>
      if c37 ≠ 32 then self.enter_error_state src
      else
        match scanWhileP (fun c => c = 32) (c37 :: r37) with
        | none => .panic
        | some r1 =>
          match r1 with
          | [] => .panic
          | e :: _ =>
            if ¬ isWordB e then self.enter_error_state src
            else
              match spanScan isWordB r1 with
              | none => .panic
              | some (tok1, r2) =>
                match r2 with
                | [] => .panic
                | c2 :: r3 =>
                  if c2 ≠ 58 then self.enter_error_state src
                  else
                    match scanWhileP (fun c => c = 32) r3 with
                    | none => .panic
                    | some r4 =>
                      match r4 with
                      | [] => .panic
                      | e2 :: _ =>
                        if ¬ isDigitB e2 then self.enter_error_state src
                        else
                          match spanScan isDigitB r4 with
                          | none => .panic
                          | some (num2, r5) =>
                            match r5 with
                            | [] => .panic
                            | c5 :: r6 =>
                              if c5 = 58 then
                                match scanWhileP (fun c => c = 32) r6 with
                                | none => .panic
                                | some r7 =>
                                  match r7 with
                                  | [] => .panic
                                  | e3 :: _ =>
                                    if ¬ isDigitB e3 then
                                      self.enter_error_state src
                                    else
                                      match spanScan isDigitB r7 with
                                      | none => .panic
                                      | some (num3, r8) =>
                                        finishHeader self src
                                          ((src.drop 2).take 35)
                                          (some tok1) num2 num3 r8
                              else
                                if ¬ tok1.all isDigitB then
                                  self.enter_error_state src
                                else
                                  finishHeader self src
                                    ((src.drop 2).take 35)
                                    none tok1 num2 (c5 :: r6)

/-- `Decoder::decode` for `LogcatStringDecoder` (`logcat.rs:405-432`):
dispatch on the error flag and the first buffered byte. -/
def LogcatStringDecoder.decode (self : LogcatStringDecoder) (src : Bytes) :
    TextOutcome :=
  if self.is_in_error_state then self.scan_out_error_state src
  else
    match src with
    | [] => .needMore self src
    | c :: _ =>
      if c = 45 then self.decode_beginning_of_ring_buffer src
      else if c ≠ 91 then self.enter_error_state src
      else self.decode_log src

/-! ## The binary logcat decoder (`LogcatBinaryDecoder`)

`src/commands/adb/logcat.rs:453-645`.  The decoder is stateless.  Header
fields are little-endian; `assert!`/`assert_eq!` failures are the
`assertFail` outcome, all other panics (`unwrap` on `None`, out-of-bounds
or inverted slicing) are `panic`. -/

/-- Interpret a `u32` bit pattern as Rust `i32`. -/
def toI32 (n : Nat) : Int :=
  if n < 2147483648 then (n : Int) else (n : Int) - 4294967296

/-- Level-code mapping of the binary decoder (`logcat.rs:590-598`):
`LOG_LEVEL_VERBOSE = 2` … `LOG_LEVEL_FATAL = 7`, anything else `Other`. -/
def levelOfByte (c : Nat) : LogLevel :=
  if c = 2 then .Verbose
  else if c = 3 then .Debug
  else if c = 4 then .Info
  else if c = 5 then .Warning
  else if c = 6 then .Error
  else if c = 7 then .Fatal
  else .Other c

/-- `str::trim_end_matches(|c| !c.is_ascii())` on a decoded string: drop
trailing non-ASCII code points. -/
def trimEndNonAscii (l : List Nat) : List Nat :=
  (l.reverse.dropWhile (fun c => 128 ≤ c)).reverse

/-- Index of the first NUL byte at position `≥ start`, if any (the
`iter().enumerate().find(|x| x == 0)` scans of the binary decoder). -/
def findNulIdx (l : Bytes) (start : Nat) : Option Nat :=
  ((l.drop start).findIdx? (fun x => x = 0)).map (· + start)

/-- `LogBuffer::TextLog` payload. -/
structure TextLogBuffer where
  level : LogLevel
  tag : List Nat
  message : List Nat
  deriving Repr, DecidableEq

/-- `LogBuffer` of the source. -/
inductive LogBuffer where
  | TextLog (b : TextLogBuffer)
  | BinaryLog (tag : Int)
  deriving Repr, DecidableEq

/-- `LogMessage`, the binary decoder's item.  The naive timestamp is
modelled by its `(sec, nsec)` components. -/
structure LogMessage where
  timestamp : Nat × Nat
  pid : Int
  tid : Nat
  lid : Option Nat
  uid : Option Nat
  buffer : LogBuffer
  deriving Repr, DecidableEq

/-- Outcome of one binary `decode` call. -/
inductive BinOutcome where
  | needMore (buf : Bytes)
  | emit (m : LogMessage) (buf : Bytes)
  /-- An `assert!`/`assert_eq!` of the header validation failed. -/
  | assertFail
  /-- Any other panic (`unwrap` on `None`, bad slice). -/
  | panic
  deriving Repr, DecidableEq

/-- `read_u32` (`logcat.rs:501-512`): `none` of the *outer* option models
the panic of the raw `src[off..off+3]` indexing; the inner option is the
function's own `Option` result (`None` when `off > hdr_size - 4`; the
subtraction is on `usize` — callers guarantee `hdr_size ≥ 20`, so the
`Nat` truncated subtraction agrees with Rust). -/
def read_u32 (src : Bytes) (hdr_size off : Nat) : Option (Option Nat) :=
  if off > hdr_size - 4 then some none
  else
    match src.get? off, src.get? (off + 1), src.get? (off + 2),
        src.get? (off + 3) with
    | some a, some b, some c, some d =>
      some (some (a + 256 * b + 65536 * c + 16777216 * d))
    | _, _, _, _ => none

/-- The event-tag (binary) payload branch of the binary decoder
(`logcat.rs:586-588`): the first four payload bytes form the `i32` event
tag; then the `LogMessage` is built (its timestamp construction `unwrap`s
`NaiveDateTime::from_timestamp_opt`, which is `None` iff
`nsec ≥ 2_000_000_000`).  `buf` is the payload slice, `newBuf` the buffer
after consuming `hdr_size + len` bytes. -/
def binEventPayload (buf newBuf : Bytes) (pid : Int)
    (tid sec nsec : Nat) (lid uid : Option Nat) : BinOutcome :=
  match buf.get? 0, buf.get? 1, buf.get? 2, buf.get? 3 with
  | some a, some b, some c, some d =>
    if nsec ≥ 2000000000 then .panic
    else
      .emit
        { timestamp := (sec, nsec), pid := pid, tid := tid, lid := lid,
          uid := uid,
          buffer := .BinaryLog (toI32 (a + 256 * b + 65536 * c +
            16777216 * d)) }
        newBuf
  | _, _, _, _ => .panic

/-- The text payload branch of the binary decoder (`logcat.rs:589-631`):
byte 0 is the level code, the tag runs from byte 1 to the first NUL (the
`find(…).unwrap()` panics when there is none), the message runs from after
the tag's NUL to the next NUL or, absent one, to `buf.len() - 1` (the
source treats a non-NUL final byte as the terminator); the `&buf[a..b]`
message slice panics when `a > b` or `b > buf.len()`; trailing non-ASCII
is trimmed from the decoded message. -/
def binTextPayload (buf newBuf : Bytes) (pid : Int)
    (tid sec nsec : Nat) (lid uid : Option Nat) : BinOutcome :=
  match buf.get? 0 with
  | none => .panic
  | some lvl0 =>
    match findNulIdx buf 1 with
    | none => .panic
    | some tag_end =>
      if tag_end + 1 > (findNulIdx buf (tag_end + 1)).getD (buf.length - 1) ∨
          (findNulIdx buf (tag_end + 1)).getD (buf.length - 1) > buf.length
      then .panic
      else if nsec ≥ 2000000000 then .panic
      else
        .emit
          { timestamp := (sec, nsec), pid := pid, tid := tid, lid := lid,
            uid := uid,
            buffer := .TextLog
              { level := levelOfByte lvl0
                tag := utf8LossyDecode ((buf.drop 1).take (tag_end - 1))
                message := trimEndNonAscii (utf8LossyDecode
                  ((buf.drop (tag_end + 1)).take
                    ((findNulIdx buf (tag_end + 1)).getD (buf.length - 1) -
                      (tag_end + 1)))) } }
          newBuf

/-- The payload half of the binary `decode` (`logcat.rs:575-643`):
classify as binary when `lid` is present and reserved (events 2, stats 5,
security 6), slice the payload out of the buffer, and decode it. -/
def binPayload (src : Bytes) (len hdr_size : Nat) (pid : Int)
    (tid sec nsec : Nat) (lid uid : Option Nat) : BinOutcome :=
  if (match lid with
      | some l => l = 2 || l = 5 || l = 6
      | none => false) then
    binEventPayload ((src.drop hdr_size).take len) (src.drop (hdr_size + len))
      pid tid sec nsec lid uid
  else
    binTextPayload ((src.drop hdr_size).take len) (src.drop (hdr_size + len))
      pid tid sec nsec lid uid

/-- The field-reading half of the binary `decode` (`logcat.rs:561-573`),
reached after validation and the full-length check: `pid` by direct
indexing of bytes 4–7 (panic when missing), `tid`/`sec`/`nsec` through
`read_u32` and `unwrap`, `lid`/`uid` through `read_u32` without
`unwrap`. -/
def binFields (src : Bytes) (len hdr_size : Nat) (rest : Bytes) :
    BinOutcome :=
  match rest with
  | p0 :: p1 :: p2 :: p3 :: _ =>
    let pid := toI32 (p0 + 256 * p1 + 65536 * p2 + 16777216 * p3)
    match read_u32 src hdr_size 8 with
    | none => .panic
    | some tidO =>
      match tidO with
      | none => .panic
      | some tid =>
        match read_u32 src hdr_size 12 with
        | none => .panic
        | some secO =>
          match secO with
          | none => .panic
          | some sec =>
            match read_u32 src hdr_size 16 with
            | none => .panic
            | some nsecO =>
              match nsecO with
              | none => .panic
              | some nsec =>
                match read_u32 src hdr_size 20,
                    read_u32 src hdr_size 24 with
                | some lid, some uid =>
                  binPayload src len hdr_size pid tid sec nsec lid uid
                | _, _ => .panic
  | _ => .panic

/-- `Decoder::decode` for `LogcatBinaryDecoder` (`logcat.rs:519-644`):
empty or shorter than 4 bytes asks for more data; then the `len` and
`hdr_size` assertions run, the full-entry length is checked, and the
fields and payload are decoded (`binFields`, `binPayload`).  The `rest`
argument passed to `binFields` is the buffer after the first four bytes,
whose head bytes 4–7 of the buffer the source indexes directly. -/
def LogcatBinaryDecoder.decode (src : Bytes) : BinOutcome :=
  match src with
  | b0 :: b1 :: b2 :: b3 :: rest =>
    if ¬ (3 ≤ b0 + 256 * b1) then .assertFail
    else if ¬ (b0 + 256 * b1 ≤ 16384) then .assertFail
    else if ¬ (20 ≤ b2 + 256 * b3) then .assertFail
    else if ¬ ((b2 + 256 * b3) % 4 = 0) then .assertFail
    else if ¬ (b2 + 256 * b3 ≤ 52) then .assertFail
    else if src.length < (b0 + 256 * b1) + (b2 + 256 * b3) then .needMore src
    else binFields src (b0 + 256 * b1) (b2 + 256 * b3) rest
  | _ => .needMore src

/-! ## The device-tracking frame decoder

Modelled from the spec: the repository contains no `track-devices` frame
decoder under `src/` (spec §2/§4.2 describe `TrackDevicesFrameDecoder`,
but no source file implements it), so the component — the 4-hex-digit
length framing, the UTF-8 payload decode, the newline split, and the
per-line parse through the §4.1 grammar — is modelled from the spec's
words below. -/

/-- ASCII punctuation, for the spec's id character class
(word/hex/punctuation). -/
def isPunctB (c : Nat) : Bool :=
  (33 ≤ c && c ≤ 47) || (58 ≤ c && c ≤ 64) || (91 ≤ c && c ≤ 96) ||
  (123 ≤ c && c ≤ 126)

/-- Modelled from the spec: the id field of §4.1 is "a token of
word/hex/punctuation characters". -/
def isSpecIdB (c : Nat) : Bool := isWordB c || isPunctB c

/-- Modelled from the spec: `connectionState` enum
(§3: device, offline, fastboot, unauthorized, other(string)). -/
inductive ConnectionState where
  | device
  | offline
  | fastboot
  | unauthorized
  | other (s : List Nat)
  deriving Repr, DecidableEq

/-- Modelled from the spec: `LiveProperties{product, model, device,
transportId}` (§3). -/
structure SpecLiveProperties where
  product : List Nat
  model : List Nat
  device : List Nat
  transport_id : Nat
  deriving Repr, DecidableEq

/-- Modelled from the spec: `DeviceRecord` (§3). -/
structure SpecDeviceRecord where
  id : List Nat
  connectionState : ConnectionState
  devpath : List Nat
  live : Option SpecLiveProperties
  deriving Repr, DecidableEq

/-- Split at the first occurrence of `sep`: the part before and the part
after the separator. -/
def splitOnceAt (sep : Bytes) : Bytes → Option (Bytes × Bytes)
  | [] => if sep = [] then some ([], []) else none
  | c :: r =>
    if startsWithB sep (c :: r) then some ([], (c :: r).drop sep.length)
    else (splitOnceAt sep r).map (fun ab => (c :: ab.1, ab.2))

/-- Modelled from the spec: the state token to `connectionState` value. -/
def connStateOf (t : List Nat) : ConnectionState :=
  if t = strBytes "device" then .device
  else if t = strBytes "offline" then .offline
  else if t = strBytes "fastboot" then .fastboot
  else if t = strBytes "unauthorized" then .unauthorized
  else .other t

/-- Modelled from the spec (§4.1): parse one enumeration line by the
grammar `<id>\s+<state>\s<devpath>(\s product:<p>\smodel:<m>\sdevice:<d>\s
transport_id:<tid>)?`; the extension values are delimited by the following
literal separators; absence of the extension block yields no live
properties; a line that does not match at all is a `ParseError` carrying
the line. -/
def specParseLine (line : List Nat) : Except (List Nat) SpecDeviceRecord :=
  match spanB isSpecIdB line with
  | ([], _) => .error line
  | (id, r1) =>
    match spanB isWsB r1 with
    | ([], _) => .error line
    | (_, r2) =>
      match spanB isAlphaB r2 with
      | ([], _) => .error line
      | (state, r3) =>
        match r3 with
        | [] => .error line
        | c :: r4 =>
          if ¬ isWsB c then .error line
          else
            match spanB isDevpathB r4 with
            | ([], _) => .error line
            | (devpath, r5) =>
              match r5 with
              | [] =>
                .ok { id := id, connectionState := connStateOf state,
                      devpath := devpath, live := none }
              | c2 :: r6 =>
                if isWsB c2 && startsWithB (strBytes "product:") r6 then
                  match splitOnceAt (strBytes " model:") (r6.drop 8) with
                  | none => .error line
                  | some (p, ra) =>
                    match splitOnceAt (strBytes " device:") ra with
                    | none => .error line
                    | some (m, rb) =>
                      match splitOnceAt (strBytes " transport_id:") rb with
                      | none => .error line
                      | some (d, tidB) =>
                        if p ≠ [] && m ≠ [] && d ≠ [] && tidB ≠ [] &&
                            tidB.all isDigitB then
                          .ok { id := id,
                                connectionState := connStateOf state,
                                devpath := devpath,
                                live := some
                                  { product := p, model := m, device := d,
                                    transport_id := digitsToNat tidB } }
                        else .error line
                else .error line

/-- Value of an ASCII hex digit, either case. -/
def hexVal (c : Nat) : Option Nat :=
  if 48 ≤ c && c ≤ 57 then some (c - 48)
  else if 97 ≤ c && c ≤ 102 then some (c - 87)
  else if 65 ≤ c && c ≤ 70 then some (c - 55)
  else none

/-- Strict UTF-8 decoding step: `none` on an invalid sequence. -/
def utf8StrictStep (b : Nat) (rest : Bytes) : Option (Nat × Bytes) :=
  if b < 128 then some (b, rest)
  else if 194 ≤ b && b ≤ 223 then
    match rest with
    | b2 :: rest2 =>
      if 128 ≤ b2 && b2 ≤ 191 then some ((b - 192) * 64 + (b2 - 128), rest2)
      else none
    | [] => none
  else if 224 ≤ b && b ≤ 239 then
    match rest with
    | b2 :: b3 :: rest3 =>
      if ((if b = 224 then 160 else 128) ≤ b2 &&
          b2 ≤ (if b = 237 then 159 else 191)) && (128 ≤ b3 && b3 ≤ 191) then
        some ((b - 224) * 4096 + (b2 - 128) * 64 + (b3 - 128), rest3)
      else none
    | _ => none
  else if 240 ≤ b && b ≤ 244 then
    match rest with
    | b2 :: b3 :: b4 :: rest4 =>
      if ((if b = 240 then 144 else 128) ≤ b2 &&
          b2 ≤ (if b = 244 then 143 else 191)) &&
          (128 ≤ b3 && b3 ≤ 191) && (128 ≤ b4 && b4 ≤ 191) then
        some ((b - 240) * 262144 + (b2 - 128) * 4096 + (b3 - 128) * 64 +
          (b4 - 128), rest4)
      else none
    | _ => none
  else none

/-- Fuel-driven loop of `utf8DecodeStrict`; see `utf8LossyGo` for the fuel
convention. -/
def utf8StrictGo : Nat → Bytes → Option (List Nat)
  | _, [] => some []
  | 0, _ :: _ => none
  | n + 1, b :: rest =>
    match utf8StrictStep b rest with
    | none => none
    | some (cp, r) => (utf8StrictGo n r).map (cp :: ·)

/-- `String::from_utf8` / `std::str::from_utf8`: strict UTF-8 decoding of
the whole input. -/
def utf8DecodeStrict (l : Bytes) : Option (List Nat) := utf8StrictGo l.length l

/-- Outcome of one device-tracking frame decode call. -/
inductive TrackOutcome where
  | needMore (buf : Bytes)
  | frame (items : List (Except (List Nat) SpecDeviceRecord)) (buf : Bytes)
  | hexLengthError
  | utf8Error
  deriving Repr

/-- Modelled from the spec (§4.2): the `track-devices` frame decoder.
Fewer than 4 bytes, or fewer than `4 + L` bytes, ask for more data and
consume nothing; a non-hex length field is `HexLengthParseError`; an
invalid-UTF-8 payload is `Utf8DecodeError`; otherwise split the payload on
newlines, parse each non-empty line by §4.1, consume exactly `4 + L`
bytes and emit the per-line results as one frame. -/
def TrackDevicesFrameDecoder.decode (src : Bytes) : TrackOutcome :=
  if src.length < 4 then .needMore src
  else
    match (src.take 4).mapM hexVal with
    | none => .hexLengthError
    | some ds =>
      let L := ds.foldl (fun acc d => acc * 16 + d) 0
      if src.length < 4 + L then .needMore src
      else
        match utf8DecodeStrict ((src.drop 4).take L) with
        | none => .utf8Error
        | some cps =>
          .frame (((cps.splitOn 10).filter (· ≠ [])).map specParseLine)
            (src.drop (4 + L))

/-! ## Span lemmas and character-class disjointness -/

theorem spanB_append (p : Nat → Bool) (xs ys : Bytes)
    (h1 : ∀ c ∈ xs, p c = true)
    (h2 : ∀ c, ys.head? = some c → p c = false) :
    spanB p (xs ++ ys) = (xs, ys) := by
  induction xs with
  | nil =>
    cases ys with
    | nil => rfl
    | cons c cs => simp [spanB, h2 c rfl]
  | cons c cs ih =>
    have hc := h1 c (List.mem_cons_self c cs)
    have hrec := ih (fun x hx => h1 x (List.mem_cons_of_mem c hx))
    simp [spanB, hc, hrec]

theorem spanB_cons_pos (p : Nat → Bool) (c : Nat) (l : Bytes) (h : p c = true) :
    spanB p (c :: l) = (c :: (spanB p l).1, (spanB p l).2) := by
  rcases hsp : spanB p l with ⟨a, b⟩
  simp [spanB, h, hsp]

theorem ws_not_xdigit {c : Nat} (h : isWsB c = true) : isXdigitB c = false := by
  by_contra hx
  rw [Bool.not_eq_false] at hx
  simp only [isWsB, Bool.or_eq_true, Bool.and_eq_true, decide_eq_true_eq] at h
  simp only [isXdigitB, Bool.or_eq_true, Bool.and_eq_true, decide_eq_true_eq] at hx
  omega

theorem alpha_not_ws {c : Nat} (h : isAlphaB c = true) : isWsB c = false := by
  by_contra hx
  rw [Bool.not_eq_false] at hx
  simp only [isAlphaB, Bool.or_eq_true, Bool.and_eq_true, decide_eq_true_eq] at h
  simp only [isWsB, Bool.or_eq_true, Bool.and_eq_true, decide_eq_true_eq] at hx
  omega

theorem ws_not_alpha {c : Nat} (h : isWsB c = true) : isAlphaB c = false := by
  by_contra hx
  rw [Bool.not_eq_false] at hx
  simp only [isWsB, Bool.or_eq_true, Bool.and_eq_true, decide_eq_true_eq] at h
  simp only [isAlphaB, Bool.or_eq_true, Bool.and_eq_true, decide_eq_true_eq] at hx
  omega

/-! ## Claims C1 and C9 -/

/-- Claim C1: for every input line that matches the enumeration grammar, the
claim states that `parse` returns `Ok` with the declared fields and no
live properties when the extension block is absent.  The code instead
reaches the unconditional `todo!()` after a successful regex match: on the
conforming line `"abc1 device usb:1"` the regex matches, extracting
serial `"abc1"`, state `"device"`, devpath `"usb:1"`, no extension block,
and then the function panics rather than returning `Ok`. -/
theorem C1_parse_reaches_todo :
    lineCaptures (strBytes "abc1 device usb:1") =
      some { serial := strBytes "abc1", connection_state := strBytes "device",
             devpath := strBytes "usb:1", adb_expanded := none } ∧
    AdbDevice.parse (strBytes "abc1 device usb:1") = .panic := by
  exact ⟨by decide, by decide⟩

/-- Claim C9, counterexample: the claim says ids made of word, hex, or
punctuation characters are accepted.  The source regex requires
`[[:xdigit:]]+` for the serial, so the line `"emulator-5554 device usb:1"`
(a word/punctuation id, alphabetic state, well-formed devpath) is rejected
with `Error::Parse`. -/
theorem C9_counterexample :
    AdbDevice.parse (strBytes "emulator-5554 device usb:1") =
      .parseError (strBytes "emulator-5554 device usb:1") := by
  decide

/-- Claim C9, amended: for every enumeration line whose id field is a token
of *hexadecimal digit* characters (the class the source regex actually
uses) followed by whitespace, an alphabetic state, a single whitespace, a
devpath of alnum/`-`/`:` characters and then anything at all (in
particular an optional extension block or nothing), the parse operation
does not return a `ParseError`. -/
theorem C9_hex_id_not_parse_error (s w t d r : Bytes) (u : Nat)
    (hs : s ≠ []) (hsc : ∀ c ∈ s, isXdigitB c = true)
    (hw : w ≠ []) (hwc : ∀ c ∈ w, isWsB c = true)
    (ht : t ≠ []) (htc : ∀ c ∈ t, isAlphaB c = true)
    (hu : isWsB u = true)
    (hd : d ≠ []) (hdc : ∀ c ∈ d, isDevpathB c = true) :
    (AdbDevice.parse (s ++ w ++ t ++ u :: d ++ r)).isParseError = false := by
  obtain ⟨c0, s', rfl⟩ := List.exists_cons_of_ne_nil hs
  obtain ⟨c1, w', rfl⟩ := List.exists_cons_of_ne_nil hw
  obtain ⟨c2, t', rfl⟩ := List.exists_cons_of_ne_nil ht
  obtain ⟨c3, d', rfl⟩ := List.exists_cons_of_ne_nil hd
  have h1 := spanB_append isXdigitB (c0 :: s')
    (c1 :: (w' ++ (c2 :: (t' ++ (u :: (c3 :: (d' ++ r))))))) hsc
    (fun c hc => by
      cases Option.some.inj hc
      exact ws_not_xdigit (hwc c1 (List.mem_cons_self _ _)))
  have h2 := spanB_append isWsB (c1 :: w')
    (c2 :: (t' ++ (u :: (c3 :: (d' ++ r))))) hwc
    (fun c hc => by
      cases Option.some.inj hc
      exact alpha_not_ws (htc c2 (List.mem_cons_self _ _)))
  have h3 := spanB_append isAlphaB (c2 :: t')
    (u :: (c3 :: (d' ++ r))) htc
    (fun c hc => by cases Option.some.inj hc; exact ws_not_alpha hu)
  have h4 := spanB_cons_pos isDevpathB c3 (d' ++ r)
    (hdc c3 (List.mem_cons_self _ _))
  rw [List.cons_append] at h1 h2 h3
  simp only [List.cons_append, List.append_assoc]
  simp only [AdbDevice.parse, lineCaptures, h1, h2, h3, hu, h4, if_true,
    ParseOutcome.isParseError]

/-- Witness for `C9_hex_id_not_parse_error` at the concrete line
`"abc1 device usb:1"`. -/
theorem C9_hex_id_witness :
    (AdbDevice.parse (strBytes "abc1" ++ strBytes " " ++ strBytes "device" ++
      32 :: strBytes "usb:1" ++ [])).isParseError = false :=
  C9_hex_id_not_parse_error (strBytes "abc1") (strBytes " ") (strBytes "device")
    (strBytes "usb:1") [] 32 (by decide) (by decide) (by decide) (by decide)
    (by decide) (by decide) (by decide) (by decide) (by decide)


/-! ## Claim C3: the tracking-frame decoder example -/

/-- Claim C3 (spec-modelled: no `track-devices` frame decoder exists under
`src/`, so the decoder is modelled from spec §4.2/§4.1).  The frame
decoder, fed the 22 bytes `"0012abc1 device usb:1\n"`, emits exactly one
frame containing one device record with id `"abc1"`, connection state
`device` and devpath `"usb:1"`, consuming all 22 bytes and leaving an
empty buffer; the payload `"abc1 device usb:1\n"` is 18 bytes, matching
the length field `"0012"`. -/
theorem C3_track_frame_example :
    TrackDevicesFrameDecoder.decode (strBytes "0012abc1 device usb:1\n") =
      .frame [.ok { id := strBytes "abc1", connectionState := .device,
                    devpath := strBytes "usb:1", live := none }] [] ∧
    (strBytes "0012abc1 device usb:1\n").length = 22 ∧
    (strBytes "abc1 device usb:1\n").length = 18 := by
  exact ⟨rfl, rfl, rfl⟩

/-! ## Claim C2: truncation safety -/

/-- Claim C2: the claim states that feeding any prefix of a valid encoded
sample never panics, for both decoders.  It fails for the text decoder:
the sample below is a complete valid long-form entry (first conjunct: the
decoder emits it in full), yet its 64-byte prefix — long enough to pass
the `MINIMAL_LOG_LEN` check but ending inside the uid token, so the
unguarded `while src[i].is_ascii_…` scan runs off the end of the buffer —
makes `decode` panic with an out-of-bounds index (last conjunct). -/
theorem C2_text_prefix_panics :
    LogcatStringDecoder.decode ⟨false, []⟩
      (strBytes "[ 2022-11-04 00:50:26.234185959 +0000 abcdefghijklmnopqrstuvwxyz: 123: 456 I/tag ]\nhello\n\n[ aaaaaaaaaaaaaaaaaaaaa") =
      .item (.LogMessage
        { timestamp := strBytes "2022-11-04 00:50:26.234185959 +0000"
          uid := some (strBytes "abcdefghijklmnopqrstuvwxyz")
          pid := 123
          tid := 456
          level := .Info
          tag := strBytes "tag"
          message := strBytes "hello" })
        ⟨false, []⟩ (strBytes "[ aaaaaaaaaaaaaaaaaaaaa") ∧
    (strBytes "[ 2022-11-04 00:50:26.234185959 +0000 abcdefghijklmnopqrstuvwxyz").isPrefixOf
      (strBytes "[ 2022-11-04 00:50:26.234185959 +0000 abcdefghijklmnopqrstuvwxyz: 123: 456 I/tag ]\nhello\n\n[ aaaaaaaaaaaaaaaaaaaaa") = true ∧
    (strBytes "[ 2022-11-04 00:50:26.234185959 +0000 abcdefghijklmnopqrstuvwxyz").length = 64 ∧
    LogcatStringDecoder.decode ⟨false, []⟩
      (strBytes "[ 2022-11-04 00:50:26.234185959 +0000 abcdefghijklmnopqrstuvwxyz") = .panic := by
  exact ⟨by decide, by decide, by decide, by decide⟩

/-! ## Claim C6: binary header validation -/

/-- The event-tag payload branch never raises a validation assertion. -/
theorem binEventPayload_ne_assertFail (buf newBuf : Bytes) (pid : Int)
    (tid sec nsec : Nat) (lid uid : Option Nat) :
    binEventPayload buf newBuf pid tid sec nsec lid uid ≠ .assertFail := by
  unfold binEventPayload
  repeat' split
  all_goals simp

/-- The text payload branch never raises a validation assertion. -/
theorem binTextPayload_ne_assertFail (buf newBuf : Bytes) (pid : Int)
    (tid sec nsec : Nat) (lid uid : Option Nat) :
    binTextPayload buf newBuf pid tid sec nsec lid uid ≠ .assertFail := by
  unfold binTextPayload
  repeat' split
  all_goals simp

/-- The payload half never raises a validation assertion. -/
theorem binPayload_ne_assertFail (src : Bytes) (len hdr_size : Nat)
    (pid : Int) (tid sec nsec : Nat) (lid uid : Option Nat) :
    binPayload src len hdr_size pid tid sec nsec lid uid ≠ .assertFail := by
  unfold binPayload
  split
  · exact binEventPayload_ne_assertFail _ _ _ _ _ _ _ _
  · exact binTextPayload_ne_assertFail _ _ _ _ _ _ _ _

/-- The field-reading half never raises a validation assertion. -/
theorem binFields_ne_assertFail (src : Bytes) (len hdr_size : Nat)
    (rest : Bytes) :
    binFields src len hdr_size rest ≠ .assertFail := by
  unfold binFields
  repeat' split
  all_goals try exact binPayload_ne_assertFail _ _ _ _ _ _ _ _ _
  all_goals simp

/-- Claim C6: for every binary decode call with at least 4 buffered bytes,
the validation aborts (an `assert!` fails) iff the declared payload length
`L = b0 + 256·b1` lies outside `[3, 16384]`, or the header size
`H = b2 + 256·b3` is below 20, not a multiple of 4, or above the
forward-compatible ceiling `28 + 6·4 = 52`; when `L` and `H` satisfy all
bounds no validation assertion fires, whatever the remaining bytes are. -/
theorem C6_binary_validation_iff (b0 b1 b2 b3 : Nat) (rest : Bytes) :
    LogcatBinaryDecoder.decode (b0 :: b1 :: b2 :: b3 :: rest) = .assertFail ↔
      (b0 + 256 * b1 < 3 ∨ 16384 < b0 + 256 * b1 ∨
       b2 + 256 * b3 < 20 ∨ (b2 + 256 * b3) % 4 ≠ 0 ∨
       52 < b2 + 256 * b3) := by
  constructor
  · intro h
    by_contra hno
    push_neg at hno
    obtain ⟨g1, g2, g3, g4, g5⟩ := hno
    simp only [LogcatBinaryDecoder.decode] at h
    rw [if_neg (by omega), if_neg (by omega), if_neg (by omega),
      if_neg (by simp [g4]), if_neg (by omega)] at h
    split at h
    · exact absurd h (by simp)
    · exact absurd h (binFields_ne_assertFail _ _ _ _)
  · intro hval
    simp only [LogcatBinaryDecoder.decode]
    by_cases h1 : 3 ≤ b0 + 256 * b1
    · by_cases h2 : b0 + 256 * b1 ≤ 16384
      · by_cases h3 : 20 ≤ b2 + 256 * b3
        · by_cases h4 : (b2 + 256 * b3) % 4 = 0
          · by_cases h5 : b2 + 256 * b3 ≤ 52
            · omega
            · simp [h1, h2, h3, h4, h5]
          · simp [h1, h2, h3, h4]
        · simp [h1, h2, h3]
      · simp [h1, h2]
    · simp [h1]

/-! ## Claims C10 and C7: binary text-payload decoding -/

theorem findIdx?_nul_append (tagB X : Bytes) (i : Nat)
    (h : ∀ c ∈ tagB, c ≠ 0) :
    (tagB ++ 0 :: X).findIdx? (fun x => x = 0) i = some (i + tagB.length) := by
  induction tagB generalizing i with
  | nil => simp [List.findIdx?_cons]
  | cons c cs ih =>
    have hc : (decide (c = 0)) = false := by
      simp [h c (List.mem_cons_self _ _)]
    simp only [List.cons_append, List.findIdx?_cons, hc, if_false,
      Bool.false_eq_true]
    rw [ih _ (fun x hx => h x (List.mem_cons_of_mem _ hx))]
    simp [Nat.add_comm, Nat.add_assoc, Nat.add_left_comm]

theorem findNulIdx_some (l : Bytes) (s : Nat) (tagB X : Bytes)
    (hdrop : l.drop s = tagB ++ 0 :: X) (h : ∀ c ∈ tagB, c ≠ 0) :
    findNulIdx l s = some (tagB.length + s) := by
  simp [findNulIdx, hdrop, findIdx?_nul_append _ _ _ h]

theorem findNulIdx_none (l : Bytes) (s : Nat)
    (h : ∀ c ∈ l.drop s, c ≠ 0) :
    findNulIdx l s = none := by
  have hn : List.findIdx? (fun x => decide (x = 0)) (l.drop s) = none :=
    List.findIdx?_eq_none_iff.mpr (fun x hx => by simpa using h x hx)
  simp [findNulIdx, hn]

theorem read_u32_at8 {b0 b1 b2 b3 p0 p1 p2 p3 t0 t1 t2 t3 s0 s1 s2 s3
    n0 n1 n2 n3 : Nat} {tail : Bytes} {hdr : Nat} (h : 12 ≤ hdr) :
    read_u32 (b0 :: b1 :: b2 :: b3 :: p0 :: p1 :: p2 :: p3 :: t0 :: t1 ::
      t2 :: t3 :: s0 :: s1 :: s2 :: s3 :: n0 :: n1 :: n2 :: n3 :: tail)
      hdr 8 = some (some (t0 + 256 * t1 + 65536 * t2 + 16777216 * t3)) := by
  unfold read_u32
  rw [if_neg (by omega)]
  rfl

theorem read_u32_at12 {b0 b1 b2 b3 p0 p1 p2 p3 t0 t1 t2 t3 s0 s1 s2 s3
    n0 n1 n2 n3 : Nat} {tail : Bytes} {hdr : Nat} (h : 16 ≤ hdr) :
    read_u32 (b0 :: b1 :: b2 :: b3 :: p0 :: p1 :: p2 :: p3 :: t0 :: t1 ::
      t2 :: t3 :: s0 :: s1 :: s2 :: s3 :: n0 :: n1 :: n2 :: n3 :: tail)
      hdr 12 = some (some (s0 + 256 * s1 + 65536 * s2 + 16777216 * s3)) := by
  unfold read_u32
  rw [if_neg (by omega)]
  rfl

theorem read_u32_at16 {b0 b1 b2 b3 p0 p1 p2 p3 t0 t1 t2 t3 s0 s1 s2 s3
    n0 n1 n2 n3 : Nat} {tail : Bytes} {hdr : Nat} (h : 20 ≤ hdr) :
    read_u32 (b0 :: b1 :: b2 :: b3 :: p0 :: p1 :: p2 :: p3 :: t0 :: t1 ::
      t2 :: t3 :: s0 :: s1 :: s2 :: s3 :: n0 :: n1 :: n2 :: n3 :: tail)
      hdr 16 = some (some (n0 + 256 * n1 + 65536 * n2 + 16777216 * n3)) := by
  unfold read_u32
  rw [if_neg (by omega)]
  rfl

/-- Any binary entry whose header passes validation, whose buffered bytes
are exactly one entry, and whose `lid` is not in the reserved binary set
is decoded through the text-payload branch on its payload slice. -/
theorem decode_classifies_text
    (b0 b1 b2 b3 p0 p1 p2 p3 t0 t1 t2 t3 s0 s1 s2 s3 n0 n1 n2 n3 : Nat)
    (pad payload : Bytes) (lidO uidO : Option Nat)
    (h3 : 3 ≤ b0 + 256 * b1) (h16384 : b0 + 256 * b1 ≤ 16384)
    (h20 : 20 ≤ b2 + 256 * b3) (h4 : (b2 + 256 * b3) % 4 = 0)
    (h52 : b2 + 256 * b3 ≤ 52)
    (hpad : pad.length + 20 = b2 + 256 * b3)
    (hplen : payload.length = b0 + 256 * b1)
    (hlid : read_u32 (b0 :: b1 :: b2 :: b3 :: p0 :: p1 :: p2 :: p3 :: t0 ::
      t1 :: t2 :: t3 :: s0 :: s1 :: s2 :: s3 :: n0 :: n1 :: n2 :: n3 ::
      (pad ++ payload)) (b2 + 256 * b3) 20 = some lidO)
    (huid : read_u32 (b0 :: b1 :: b2 :: b3 :: p0 :: p1 :: p2 :: p3 :: t0 ::
      t1 :: t2 :: t3 :: s0 :: s1 :: s2 :: s3 :: n0 :: n1 :: n2 :: n3 ::
      (pad ++ payload)) (b2 + 256 * b3) 24 = some uidO)
    (htext : ∀ l, lidO = some l → ¬(l = 2 ∨ l = 5 ∨ l = 6)) :
    LogcatBinaryDecoder.decode (b0 :: b1 :: b2 :: b3 :: p0 :: p1 :: p2 ::
      p3 :: t0 :: t1 :: t2 :: t3 :: s0 :: s1 :: s2 :: s3 :: n0 :: n1 ::
      n2 :: n3 :: (pad ++ payload)) =
      binTextPayload payload []
        (toI32 (p0 + 256 * p1 + 65536 * p2 + 16777216 * p3))
        (t0 + 256 * t1 + 65536 * t2 + 16777216 * t3)
        (s0 + 256 * s1 + 65536 * s2 + 16777216 * s3)
        (n0 + 256 * n1 + 65536 * n2 + 16777216 * n3) lidO uidO := by
  have hlen : (b0 :: b1 :: b2 :: b3 :: p0 :: p1 :: p2 :: p3 :: t0 :: t1 ::
      t2 :: t3 :: s0 :: s1 :: s2 :: s3 :: n0 :: n1 :: n2 :: n3 ::
      (pad ++ payload)).length = (b2 + 256 * b3) + (b0 + 256 * b1) := by
    simp [List.length_append]
    omega
  simp only [LogcatBinaryDecoder.decode]
  rw [if_neg (by omega), if_neg (by omega), if_neg (by omega),
    if_neg (by omega), if_neg (by omega), if_neg (by omega)]
  simp only [binFields]
  rw [read_u32_at8 (by omega), read_u32_at12 (by omega),
    read_u32_at16 (by omega), hlid, huid]
  simp only [binPayload]
  rw [if_neg (by
    rcases lidO with _ | l
    · simp
    · have := htext l rfl
      simp only [Bool.or_eq_true, decide_eq_true_eq]
      tauto)]
  have hdrop : (b0 :: b1 :: b2 :: b3 :: p0 :: p1 :: p2 :: p3 :: t0 :: t1 ::
      t2 :: t3 :: s0 :: s1 :: s2 :: s3 :: n0 :: n1 :: n2 :: n3 ::
      (pad ++ payload)).drop (b2 + 256 * b3) = payload := by
    rw [show (b0 :: b1 :: b2 :: b3 :: p0 :: p1 :: p2 :: p3 :: t0 :: t1 ::
      t2 :: t3 :: s0 :: s1 :: s2 :: s3 :: n0 :: n1 :: n2 :: n3 ::
      (pad ++ payload)) = ([b0, b1, b2, b3, p0, p1, p2, p3, t0, t1,
      t2, t3, s0, s1, s2, s3, n0, n1, n2, n3] ++ pad) ++ payload by simp]
    exact List.drop_left' (by simp; try omega)
  rw [hdrop]
  rw [List.take_of_length_le (by omega), ← hlen, List.drop_length]

/-- Text payload with both NUL terminators present: the tag is the bytes
between position 1 and the first NUL, the message the bytes between the
tag's NUL and the next NUL; bytes after the message's NUL are ignored. -/
theorem binTextPayload_with_terminator (lvl : Nat)
    (tagB msgB junk newBuf : Bytes) (pid : Int) (tid sec nsec : Nat)
    (lidO uidO : Option Nat)
    (hta : ∀ c ∈ tagB, c ≠ 0) (hma : ∀ c ∈ msgB, c ≠ 0)
    (hnsec : nsec < 2000000000) :
    binTextPayload (lvl :: (tagB ++ 0 :: (msgB ++ 0 :: junk))) newBuf
      pid tid sec nsec lidO uidO =
      .emit
        { timestamp := (sec, nsec), pid := pid, tid := tid, lid := lidO,
          uid := uidO,
          buffer := .TextLog
            { level := levelOfByte lvl, tag := utf8LossyDecode tagB,
              message := trimEndNonAscii (utf8LossyDecode msgB) } }
        newBuf := by
  have h1 : findNulIdx (lvl :: (tagB ++ 0 :: (msgB ++ 0 :: junk))) 1 =
      some (tagB.length + 1) :=
    findNulIdx_some _ _ tagB (msgB ++ 0 :: junk) rfl hta
  have h2 : findNulIdx (lvl :: (tagB ++ 0 :: (msgB ++ 0 :: junk)))
      (tagB.length + 1 + 1) = some (msgB.length + (tagB.length + 1 + 1)) := by
    refine findNulIdx_some _ _ msgB junk ?_ hma
    rw [show lvl :: (tagB ++ 0 :: (msgB ++ 0 :: junk)) =
      ((lvl :: tagB) ++ [0]) ++ (msgB ++ 0 :: junk) by simp]
    exact List.drop_left' (by simp; try omega)
  have hblen : (lvl :: (tagB ++ 0 :: (msgB ++ 0 :: junk))).length =
      tagB.length + msgB.length + junk.length + 3 := by
    simp
    omega
  simp only [binTextPayload, List.get?, h1, h2, Option.getD_some, hblen]
  rw [if_neg (by omega), if_neg (by omega)]
  have htag : ((lvl :: (tagB ++ 0 :: (msgB ++ 0 :: junk))).drop 1).take
      (tagB.length + 1 - 1) = tagB := by
    simp only [List.drop_one, List.tail_cons, Nat.add_sub_cancel]
    exact List.take_left' rfl
  have hmsg : ((lvl :: (tagB ++ 0 :: (msgB ++ 0 :: junk))).drop
      (tagB.length + 1 + 1)).take
      (msgB.length + (tagB.length + 1 + 1) - (tagB.length + 1 + 1)) =
      msgB := by
    rw [show lvl :: (tagB ++ 0 :: (msgB ++ 0 :: junk)) =
      ((lvl :: tagB) ++ [0]) ++ (msgB ++ 0 :: junk) by simp]
    rw [List.drop_left' (by simp; try omega)]
    rw [Nat.add_sub_cancel]
    exact List.take_left' rfl
  rw [htag, hmsg]

/-- Text payload whose final byte is not NUL (no NUL after the tag's): the
source takes the message up to `buf.len() - 1`, silently dropping the
final byte. -/
theorem binTextPayload_no_terminator (lvl : Nat)
    (tagB msgB newBuf : Bytes) (pid : Int) (tid sec nsec : Nat)
    (lidO uidO : Option Nat)
    (hta : ∀ c ∈ tagB, c ≠ 0) (hmb : msgB ≠ [])
    (hma : ∀ c ∈ msgB, c ≠ 0) (hnsec : nsec < 2000000000) :
    binTextPayload (lvl :: (tagB ++ 0 :: msgB)) newBuf
      pid tid sec nsec lidO uidO =
      .emit
        { timestamp := (sec, nsec), pid := pid, tid := tid, lid := lidO,
          uid := uidO,
          buffer := .TextLog
            { level := levelOfByte lvl, tag := utf8LossyDecode tagB,
              message := trimEndNonAscii (utf8LossyDecode
                (msgB.take (msgB.length - 1))) } }
        newBuf := by
  have hmblen : 1 ≤ msgB.length := by
    cases msgB with
    | nil => exact absurd rfl hmb
    | cons a l => simp
  have h1 : findNulIdx (lvl :: (tagB ++ 0 :: msgB)) 1 =
      some (tagB.length + 1) :=
    findNulIdx_some _ _ tagB msgB rfl hta
  have h2 : findNulIdx (lvl :: (tagB ++ 0 :: msgB))
      (tagB.length + 1 + 1) = none := by
    refine findNulIdx_none _ _ ?_
    rw [show lvl :: (tagB ++ 0 :: msgB) =
      ((lvl :: tagB) ++ [0]) ++ msgB by simp]
    rw [List.drop_left' (by simp; try omega)]
    exact hma
  have hblen : (lvl :: (tagB ++ 0 :: msgB)).length =
      tagB.length + msgB.length + 2 := by
    simp
    omega
  simp only [binTextPayload, List.get?, h1, h2, Option.getD_none, hblen]
  rw [if_neg (by omega), if_neg (by omega)]
  have htag : ((lvl :: (tagB ++ 0 :: msgB)).drop 1).take
      (tagB.length + 1 - 1) = tagB := by
    simp only [List.drop_one, List.tail_cons, Nat.add_sub_cancel]
    exact List.take_left' rfl
  have hmsg : ((lvl :: (tagB ++ 0 :: msgB)).drop (tagB.length + 1 + 1)).take
      (tagB.length + msgB.length + 2 - 1 - (tagB.length + 1 + 1)) =
      msgB.take (msgB.length - 1) := by
    rw [show lvl :: (tagB ++ 0 :: msgB) =
      ((lvl :: tagB) ++ [0]) ++ msgB by simp]
    rw [List.drop_left' (by simp; try omega)]
    congr 1
    omega
  rw [htag, hmsg]

/-- Claim C10: for every binary entry whose header passes validation,
whose `lid` does not classify the payload as binary, and whose payload
contains no NUL byte after byte 0, the decode call panics (the `unwrap`
on the missing tag terminator) rather than returning an entry or a typed
error, even though the payload length passed the `L ≥ 3` validation. -/
theorem C10_missing_tag_nul_panics
    (b0 b1 b2 b3 p0 p1 p2 p3 t0 t1 t2 t3 s0 s1 s2 s3 n0 n1 n2 n3 : Nat)
    (pad : Bytes) (lvl : Nat) (restP : Bytes) (lidO uidO : Option Nat)
    (h3 : 3 ≤ b0 + 256 * b1) (h16384 : b0 + 256 * b1 ≤ 16384)
    (h20 : 20 ≤ b2 + 256 * b3) (h4 : (b2 + 256 * b3) % 4 = 0)
    (h52 : b2 + 256 * b3 ≤ 52)
    (hpad : pad.length + 20 = b2 + 256 * b3)
    (hplen : restP.length + 1 = b0 + 256 * b1)
    (hlid : read_u32 (b0 :: b1 :: b2 :: b3 :: p0 :: p1 :: p2 :: p3 :: t0 ::
      t1 :: t2 :: t3 :: s0 :: s1 :: s2 :: s3 :: n0 :: n1 :: n2 :: n3 ::
      (pad ++ lvl :: restP)) (b2 + 256 * b3) 20 = some lidO)
    (huid : read_u32 (b0 :: b1 :: b2 :: b3 :: p0 :: p1 :: p2 :: p3 :: t0 ::
      t1 :: t2 :: t3 :: s0 :: s1 :: s2 :: s3 :: n0 :: n1 :: n2 :: n3 ::
      (pad ++ lvl :: restP)) (b2 + 256 * b3) 24 = some uidO)
    (htext : ∀ l, lidO = some l → ¬(l = 2 ∨ l = 5 ∨ l = 6))
    (hnul : ∀ c ∈ restP, c ≠ 0) :
    LogcatBinaryDecoder.decode (b0 :: b1 :: b2 :: b3 :: p0 :: p1 :: p2 ::
      p3 :: t0 :: t1 :: t2 :: t3 :: s0 :: s1 :: s2 :: s3 :: n0 :: n1 ::
      n2 :: n3 :: (pad ++ lvl :: restP)) = .panic := by
  rw [decode_classifies_text b0 b1 b2 b3 p0 p1 p2 p3 t0 t1 t2 t3 s0 s1 s2
    s3 n0 n1 n2 n3 pad (lvl :: restP) lidO uidO h3 h16384 h20 h4 h52 hpad
    (by simp; omega) hlid huid htext]
  simp only [binTextPayload, List.get?]
  rw [findNulIdx_none _ _ (by simpa using hnul)]

/-- Witness for `C10_missing_tag_nul_panics`: a concrete 33-byte entry
(header size 28, payload `[3, 65, 66]` with no NUL after byte 0)
panics. -/
theorem C10_witness :
    LogcatBinaryDecoder.decode (3 :: 0 :: 28 :: 0 :: 1 :: 0 :: 0 :: 0 ::
      2 :: 0 :: 0 :: 0 :: 3 :: 0 :: 0 :: 0 :: 4 :: 0 :: 0 :: 0 ::
      ([0, 0, 0, 0, 7, 0, 0, 0] ++ 3 :: [65, 66])) = .panic :=
  C10_missing_tag_nul_panics 3 0 28 0 1 0 0 0 2 0 0 0 3 0 0 0 4 0 0 0
    [0, 0, 0, 0, 7, 0, 0, 0] 3 [65, 66] (some 0) (some 7)
    (by decide) (by decide) (by decide) (by decide) (by decide) (by decide)
    (by decide) (by decide) (by decide)
    (fun l hl => by cases hl; decide) (by decide)

/-- Claim C7, counterexample: for the payload `[3, 65, 0, 104, 105]`
(level Debug, tag `"A"`, then `"hi"` with no trailing NUL) the claim says
the message is implicitly terminated at the buffer end, i.e. `"hi"`; the
code instead treats the final byte as the terminator and decodes the
message `"h"` (byte list `[104]`, not `[104, 105]`). -/
theorem C7_counterexample :
    LogcatBinaryDecoder.decode ([5, 0, 28, 0, 210, 4, 0, 0, 46, 22, 0, 0,
      100, 0, 0, 0, 200, 0, 0, 0, 0, 0, 0, 0, 7, 0, 0, 0] ++
      [3, 65, 0, 104, 105]) =
      .emit
        { timestamp := (100, 200), pid := 1234, tid := 5678, lid := some 0,
          uid := some 7,
          buffer := .TextLog
            { level := .Debug, tag := [65], message := [104] } } [] ∧
    ([104] : List Nat) ≠ [104, 105] := by
  exact ⟨by decide, by decide⟩

/-- Claim C7, amended: for every binary log entry classified as a text
payload, the decoded entry has level derived from payload byte 0, tag
equal to the bytes from position 1 up to the first NUL, and message equal
to the bytes after the tag's NUL up to the next NUL or, when no further
NUL exists, up to (and excluding) the final payload byte, which the
source treats as the terminator; trailing non-ASCII is trimmed from the
message. -/
theorem C7_text_payload_fields :
    (∀ (b0 b1 b2 b3 p0 p1 p2 p3 t0 t1 t2 t3 s0 s1 s2 s3 n0 n1 n2 n3 : Nat)
      (pad : Bytes) (lvl : Nat) (tagB msgB junk : Bytes)
      (lidO uidO : Option Nat),
      b0 + 256 * b1 ≤ 16384 → 20 ≤ b2 + 256 * b3 →
      (b2 + 256 * b3) % 4 = 0 → b2 + 256 * b3 ≤ 52 →
      pad.length + 20 = b2 + 256 * b3 →
      tagB.length + msgB.length + junk.length + 3 = b0 + 256 * b1 →
      read_u32 (b0 :: b1 :: b2 :: b3 :: p0 :: p1 :: p2 :: p3 :: t0 :: t1 ::
        t2 :: t3 :: s0 :: s1 :: s2 :: s3 :: n0 :: n1 :: n2 :: n3 ::
        (pad ++ (lvl :: (tagB ++ 0 :: (msgB ++ 0 :: junk)))))
        (b2 + 256 * b3) 20 = some lidO →
      read_u32 (b0 :: b1 :: b2 :: b3 :: p0 :: p1 :: p2 :: p3 :: t0 :: t1 ::
        t2 :: t3 :: s0 :: s1 :: s2 :: s3 :: n0 :: n1 :: n2 :: n3 ::
        (pad ++ (lvl :: (tagB ++ 0 :: (msgB ++ 0 :: junk)))))
        (b2 + 256 * b3) 24 = some uidO →
      (∀ l, lidO = some l → ¬(l = 2 ∨ l = 5 ∨ l = 6)) →
      (∀ c ∈ tagB, c ≠ 0) → (∀ c ∈ msgB, c ≠ 0) →
      n0 + 256 * n1 + 65536 * n2 + 16777216 * n3 < 2000000000 →
      LogcatBinaryDecoder.decode (b0 :: b1 :: b2 :: b3 :: p0 :: p1 :: p2 ::
        p3 :: t0 :: t1 :: t2 :: t3 :: s0 :: s1 :: s2 :: s3 :: n0 :: n1 ::
        n2 :: n3 :: (pad ++ (lvl :: (tagB ++ 0 :: (msgB ++ 0 :: junk))))) =
        .emit
          { timestamp := (s0 + 256 * s1 + 65536 * s2 + 16777216 * s3,
              n0 + 256 * n1 + 65536 * n2 + 16777216 * n3)
            pid := toI32 (p0 + 256 * p1 + 65536 * p2 + 16777216 * p3)
            tid := t0 + 256 * t1 + 65536 * t2 + 16777216 * t3
            lid := lidO
            uid := uidO
            buffer := .TextLog
              { level := levelOfByte lvl, tag := utf8LossyDecode tagB,
                message := trimEndNonAscii (utf8LossyDecode msgB) } } []) ∧
    (∀ (b0 b1 b2 b3 p0 p1 p2 p3 t0 t1 t2 t3 s0 s1 s2 s3 n0 n1 n2 n3 : Nat)
      (pad : Bytes) (lvl : Nat) (tagB msgB : Bytes)
      (lidO uidO : Option Nat),
      b0 + 256 * b1 ≤ 16384 → 20 ≤ b2 + 256 * b3 →
      (b2 + 256 * b3) % 4 = 0 → b2 + 256 * b3 ≤ 52 →
      pad.length + 20 = b2 + 256 * b3 →
      tagB.length + msgB.length + 2 = b0 + 256 * b1 →
      read_u32 (b0 :: b1 :: b2 :: b3 :: p0 :: p1 :: p2 :: p3 :: t0 :: t1 ::
        t2 :: t3 :: s0 :: s1 :: s2 :: s3 :: n0 :: n1 :: n2 :: n3 ::
        (pad ++ (lvl :: (tagB ++ 0 :: msgB))))
        (b2 + 256 * b3) 20 = some lidO →
      read_u32 (b0 :: b1 :: b2 :: b3 :: p0 :: p1 :: p2 :: p3 :: t0 :: t1 ::
        t2 :: t3 :: s0 :: s1 :: s2 :: s3 :: n0 :: n1 :: n2 :: n3 ::
        (pad ++ (lvl :: (tagB ++ 0 :: msgB))))
        (b2 + 256 * b3) 24 = some uidO →
      (∀ l, lidO = some l → ¬(l = 2 ∨ l = 5 ∨ l = 6)) →
      (∀ c ∈ tagB, c ≠ 0) → msgB ≠ [] → (∀ c ∈ msgB, c ≠ 0) →
      n0 + 256 * n1 + 65536 * n2 + 16777216 * n3 < 2000000000 →
      LogcatBinaryDecoder.decode (b0 :: b1 :: b2 :: b3 :: p0 :: p1 :: p2 ::
        p3 :: t0 :: t1 :: t2 :: t3 :: s0 :: s1 :: s2 :: s3 :: n0 :: n1 ::
        n2 :: n3 :: (pad ++ (lvl :: (tagB ++ 0 :: msgB)))) =
        .emit
          { timestamp := (s0 + 256 * s1 + 65536 * s2 + 16777216 * s3,
              n0 + 256 * n1 + 65536 * n2 + 16777216 * n3)
            pid := toI32 (p0 + 256 * p1 + 65536 * p2 + 16777216 * p3)
            tid := t0 + 256 * t1 + 65536 * t2 + 16777216 * t3
            lid := lidO
            uid := uidO
            buffer := .TextLog
              { level := levelOfByte lvl, tag := utf8LossyDecode tagB,
                message := trimEndNonAscii (utf8LossyDecode
                  (msgB.take (msgB.length - 1))) } } []) := by
  constructor
  · intro b0 b1 b2 b3 p0 p1 p2 p3 t0 t1 t2 t3 s0 s1 s2 s3 n0 n1 n2 n3
      pad lvl tagB msgB junk lidO uidO h16384 h20 h4 h52 hpad hplen
      hlid huid htext hta hma hnsec
    rw [decode_classifies_text b0 b1 b2 b3 p0 p1 p2 p3 t0 t1 t2 t3 s0 s1
      s2 s3 n0 n1 n2 n3 pad _ lidO uidO (by omega) h16384 h20 h4 h52 hpad
      (by simp; omega) hlid huid htext]
    exact binTextPayload_with_terminator lvl tagB msgB junk [] _ _ _ _
      lidO uidO hta hma hnsec
  · intro b0 b1 b2 b3 p0 p1 p2 p3 t0 t1 t2 t3 s0 s1 s2 s3 n0 n1 n2 n3
      pad lvl tagB msgB lidO uidO h16384 h20 h4 h52 hpad hplen
      hlid huid htext hta hmb hma hnsec
    have hmlen : 0 < msgB.length := List.length_pos.mpr hmb
    rw [decode_classifies_text b0 b1 b2 b3 p0 p1 p2 p3 t0 t1 t2 t3 s0 s1
      s2 s3 n0 n1 n2 n3 pad _ lidO uidO (by omega) h16384 h20 h4 h52 hpad
      (by simp; omega) hlid huid htext]
    exact binTextPayload_no_terminator lvl tagB msgB [] _ _ _ _
      lidO uidO hta hmb hma hnsec

/-- Witness for `C7_text_payload_fields` (second conjunct) at the
concrete entry with tag `"A"` and unterminated message `"hi"`. -/
theorem C7_text_payload_witness :
    LogcatBinaryDecoder.decode (5 :: 0 :: 28 :: 0 :: 210 :: 4 :: 0 :: 0 ::
      46 :: 22 :: 0 :: 0 :: 100 :: 0 :: 0 :: 0 :: 200 :: 0 :: 0 :: 0 ::
      ([0, 0, 0, 0, 7, 0, 0, 0] ++ (3 :: ([65] ++ 0 :: [104, 105])))) =
      .emit
        { timestamp := (100, 200), pid := toI32 1234, tid := 5678,
          lid := some 0, uid := some 7,
          buffer := .TextLog
            { level := levelOfByte 3, tag := utf8LossyDecode [65],
              message := trimEndNonAscii (utf8LossyDecode
                ([104, 105].take 1)) } } [] :=
  C7_text_payload_fields.2 5 0 28 0 210 4 0 0 46 22 0 0 100 0 0 0 200 0 0 0
    [0, 0, 0, 0, 7, 0, 0, 0] 3 [65] [104, 105] (some 0) (some 7)
    (by decide) (by decide) (by decide) (by decide) (by decide) (by decide)
    (by decide) (by decide) (fun l hl => by cases hl; decide)
    (by decide) (by decide) (by decide) (by decide)

/-- The error-recovery scan finds the first `"\n\n"`-plus-marker window:
if the buffer is `pre ++ "\n\n" ++ marker…` and no window matches inside
`pre`, `findResync` returns `pre`'s length. -/
theorem findResync_first (pre rest : Bytes) (m : Nat)
    (hm : m = 45 ∨ m = 91)
    (hno : ∀ k < pre.length,
      ¬((pre ++ 10 :: 10 :: m :: rest).get? k = some 10 ∧
        (pre ++ 10 :: 10 :: m :: rest).get? (k + 1) = some 10 ∧
        ((pre ++ 10 :: 10 :: m :: rest).get? (k + 2) = some 45 ∨
         (pre ++ 10 :: 10 :: m :: rest).get? (k + 2) = some 91))) :
    findResync (pre ++ 10 :: 10 :: m :: rest) = some pre.length := by
  induction pre with
  | nil =>
    rcases hm with rfl | rfl <;> simp [findResync]
  | cons c pre' ih =>
    have hlen2 : 2 ≤ (pre' ++ 10 :: 10 :: m :: rest).length := by
      simp
      omega
    obtain ⟨x1, X1, hX1⟩ : ∃ x1 X1, pre' ++ 10 :: 10 :: m :: rest = x1 :: X1 := by
      cases hx : pre' ++ 10 :: 10 :: m :: rest with
      | nil => rw [hx] at hlen2; simp at hlen2
      | cons a l => exact ⟨a, l, rfl⟩
    obtain ⟨x2, X2, hX2⟩ : ∃ x2 X2, X1 = x2 :: X2 := by
      cases hx : X1 with
      | nil =>
        rw [hx] at hX1
        rw [hX1] at hlen2
        simp at hlen2
      | cons a l => exact ⟨a, l, rfl⟩
    have hsplit : (c :: pre') ++ 10 :: 10 :: m :: rest =
        c :: x1 :: x2 :: X2 := by
      simp [hX1, hX2]
    rw [hsplit]
    have h0 := hno 0 (by simp)
    have hcond : ¬(c = 10 ∧ x1 = 10 ∧ (x2 = 45 ∨ x2 = 91)) := by
      intro ⟨hc, hx1c, hx2c⟩
      apply h0
      have g0 : ((c :: pre') ++ 10 :: 10 :: m :: rest).get? 0 = some c := rfl
      have g1 : ((c :: pre') ++ 10 :: 10 :: m :: rest).get? 1 = some x1 := by
        rw [show (c :: pre') ++ 10 :: 10 :: m :: rest = c :: x1 :: x2 :: X2
          from hsplit]
        rfl
      have g2 : ((c :: pre') ++ 10 :: 10 :: m :: rest).get? 2 = some x2 := by
        rw [show (c :: pre') ++ 10 :: 10 :: m :: rest = c :: x1 :: x2 :: X2
          from hsplit]
        rfl
      refine ⟨by rw [g0, hc], by rw [g1, hx1c], ?_⟩
      rcases hx2c with h | h
      · exact Or.inl (by rw [g2, h])
      · exact Or.inr (by rw [g2, h])
    have hrec : findResync (x1 :: x2 :: X2) = some pre'.length := by
      rw [show x1 :: x2 :: X2 = pre' ++ 10 :: 10 :: m :: rest by
        rw [hX1, hX2]]
      refine ih ?_
      intro k hk
      have := hno (k + 1) (by simp; omega)
      intro hw
      apply this
      have heq : ∀ j, (pre' ++ 10 :: 10 :: m :: rest).get? j =
          ((c :: pre') ++ 10 :: 10 :: m :: rest).get? (j + 1) := by
        intro j
        simp [List.get?]
      rw [heq, heq, heq] at hw
      exact hw
    simp only [findResync]
    rw [if_neg (by
      simp only [Bool.and_eq_true, Bool.or_eq_true, decide_eq_true_eq]
      tauto)]
    rw [hrec]
    simp

/-- Claim C5: in the text decoder's error-recovery state, whenever the
buffered bytes contain a first occurrence of `"\n\n"` immediately followed
by `'-'` or `'['`, decode emits one `LogUnknown` holding exactly the
previously accumulated bytes plus the buffered bytes strictly before that
separator, consumes through the two newlines, and returns to the Normal
state; in particular garbage bytes followed by
`"\n\n--------- beginning of main\n"` yield `LogUnknown` of exactly the
garbage and then `LogBeginning("main")`. -/
theorem C5_error_recovery :
    (∀ (err pre rest : Bytes) (m : Nat),
      (m = 45 ∨ m = 91) →
      (∀ k < pre.length,
        ¬((pre ++ 10 :: 10 :: m :: rest).get? k = some 10 ∧
          (pre ++ 10 :: 10 :: m :: rest).get? (k + 1) = some 10 ∧
          ((pre ++ 10 :: 10 :: m :: rest).get? (k + 2) = some 45 ∨
           (pre ++ 10 :: 10 :: m :: rest).get? (k + 2) = some 91))) →
      LogcatStringDecoder.decode ⟨true, err⟩ (pre ++ 10 :: 10 :: m :: rest) =
        .item (.LogUnknown (err ++ pre)) ⟨false, []⟩ (m :: rest)) ∧
    LogcatStringDecoder.decode ⟨false, []⟩
      (strBytes "xyz\n\n--------- beginning of main\n") =
      .item (.LogUnknown (strBytes "xyz")) ⟨false, []⟩
        (strBytes "--------- beginning of main\n") ∧
    LogcatStringDecoder.decode ⟨false, []⟩
      (strBytes "--------- beginning of main\n") =
      .item (.LogBeginning (strBytes "main")) ⟨false, []⟩ [] := by
  refine ⟨?_, by decide, by decide⟩
  intro err pre rest m hm hno
  simp only [LogcatStringDecoder.decode, LogcatStringDecoder.scan_out_error_state]
  rw [findResync_first pre rest m hm hno]
  have htake : (pre ++ 10 :: 10 :: m :: rest).take pre.length = pre :=
    List.take_left' rfl
  have hdrop : (pre ++ 10 :: 10 :: m :: rest).drop (pre.length + 2) =
      m :: rest := by
    rw [show pre ++ 10 :: 10 :: m :: rest =
      (pre ++ [10, 10]) ++ m :: rest by simp]
    exact List.drop_left' (by simp)
  simp [htake, hdrop]

/-- Witness for the universal part of `C5_error_recovery`: the garbage
`"xyz"` with accumulator `"g"` resynchronizes at the following
`"\n\n-"`. -/
theorem C5_error_recovery_witness :
    LogcatStringDecoder.decode ⟨true, strBytes "g"⟩
      (strBytes "xyz" ++ 10 :: 10 :: 45 :: strBytes "rest") =
      .item (.LogUnknown (strBytes "g" ++ strBytes "xyz")) ⟨false, []⟩
        (45 :: strBytes "rest") :=
  C5_error_recovery.1 (strBytes "g") (strBytes "xyz") (strBytes "rest") 45
    (Or.inl rfl) (by decide)

/-- An `enter_error_state` call never reports "no item yet" with the
error flag clear. -/
theorem enter_error_needMore (st st' : LogcatStringDecoder)
    (src b' : Bytes)
    (h : st.enter_error_state src = .needMore st' b') :
    st'.is_in_error_state = true := by
  unfold LogcatStringDecoder.enter_error_state
    LogcatStringDecoder.scan_out_error_state at h
  rcases hf : findResync src with _ | i <;> simp only [hf] at h
  · cases h
    rfl
  · cases h

theorem binEventPayload_ne_needMore (buf newBuf : Bytes) (pid : Int)
    (tid sec nsec : Nat) (lid uid : Option Nat) (b' : Bytes) :
    binEventPayload buf newBuf pid tid sec nsec lid uid ≠ .needMore b' := by
  unfold binEventPayload
  repeat' split
  all_goals simp

theorem binTextPayload_ne_needMore (buf newBuf : Bytes) (pid : Int)
    (tid sec nsec : Nat) (lid uid : Option Nat) (b' : Bytes) :
    binTextPayload buf newBuf pid tid sec nsec lid uid ≠ .needMore b' := by
  unfold binTextPayload
  repeat' split
  all_goals simp

theorem binFields_ne_needMore (src : Bytes) (len hdr_size : Nat)
    (rest b' : Bytes) :
    binFields src len hdr_size rest ≠ .needMore b' := by
  unfold binFields binPayload
  repeat' split
  all_goals
    first
      | exact binEventPayload_ne_needMore _ _ _ _ _ _ _ _ _
      | exact binTextPayload_ne_needMore _ _ _ _ _ _ _ _ _
      | simp

/-- The ring-name loop: a "no item yet" report in the Normal state leaves
the decoder state and the buffer untouched. -/
theorem ringNameLoop_needMore (st st' : LogcatStringDecoder)
    (src b' : Bytes) (acc rl : Bytes)
    (h : ringNameLoop st src acc rl = .needMore st' b')
    (hst' : st'.is_in_error_state = false) :
    st' = st ∧ b' = src := by
  induction rl generalizing acc with
  | nil =>
    cases h
    exact ⟨rfl, rfl⟩
  | cons c cs ih =>
    unfold ringNameLoop at h
    split_ifs at h
    all_goals
      first
        | exact ih _ h
        | cases h
        | exact absurd (enter_error_needMore _ _ _ _ h) (by simp [hst'])

/-- `decode_beginning_of_ring_buffer`: a "no item yet" report with the
error flag still clear leaves state and buffer untouched. -/
theorem decode_beginning_needMore (st st' : LogcatStringDecoder)
    (src b' : Bytes)
    (h : st.decode_beginning_of_ring_buffer src = .needMore st' b')
    (hst' : st'.is_in_error_state = false) :
    st' = st ∧ b' = src := by
  unfold LogcatStringDecoder.decode_beginning_of_ring_buffer at h
  split_ifs at h
  · cases h
    exact ⟨rfl, rfl⟩
  · exact ringNameLoop_needMore _ _ _ _ _ _ h hst'
  · exact absurd (enter_error_needMore _ _ _ _ h) (by simp [hst'])

/-- `finishHeader`: a "no item yet" report with the error flag still
clear leaves state and buffer untouched. -/
theorem finishHeader_needMore (st st' : LogcatStringDecoder)
    (src tsB : Bytes) (uid : Option Bytes) (pd td after b' : Bytes)
    (h : finishHeader st src tsB uid pd td after = .needMore st' b')
    (hst' : st'.is_in_error_state = false) :
    st' = st ∧ b' = src := by
  unfold finishHeader at h
  repeat' split at h
  all_goals
    first
      | (cases h; exact ⟨rfl, rfl⟩)
      | cases h
      | exact absurd (enter_error_needMore _ _ _ _ h) (by simp [hst'])

/-- `decode_log`: a "no item yet" report with the error flag still clear
leaves state and buffer untouched. -/
theorem decode_log_needMore (st st' : LogcatStringDecoder)
    (src b' : Bytes)
    (h : st.decode_log src = .needMore st' b')
    (hst' : st'.is_in_error_state = false) :
    st' = st ∧ b' = src := by
  unfold LogcatStringDecoder.decode_log at h
  repeat' split at h
  all_goals
    first
      | (cases h; exact ⟨rfl, rfl⟩)
      | cases h
      | exact absurd (enter_error_needMore _ _ _ _ h) (by simp [hst'])
      | exact finishHeader_needMore _ _ _ _ _ _ _ _ _ h hst'

/-- The binary decoder consumes nothing when it reports "no item yet". -/
theorem binDecode_needMore_unchanged (src b' : Bytes)
    (h : LogcatBinaryDecoder.decode src = .needMore b') : b' = src := by
  unfold LogcatBinaryDecoder.decode at h
  repeat' split at h
  all_goals
    first
      | (cases h; rfl)
      | cases h
      | exact absurd h (binFields_ne_needMore _ _ _ _ _)

/-- The text decoder, outside error recovery and not entering it, leaves
state and buffer untouched when it reports "no item yet". -/
theorem textDecode_needMore_unchanged (st st' : LogcatStringDecoder)
    (src b' : Bytes)
    (hst : st.is_in_error_state = false)
    (hst' : st'.is_in_error_state = false)
    (h : st.decode src = .needMore st' b') :
    st' = st ∧ b' = src := by
  unfold LogcatStringDecoder.decode at h
  rw [if_neg (by simp [hst])] at h
  rcases src with _ | ⟨c, rest⟩
  · cases h
    exact ⟨rfl, rfl⟩
  · dsimp only at h
    split_ifs at h
    · exact decode_beginning_needMore _ _ _ _ h hst'
    · exact absurd (enter_error_needMore _ _ _ _ h) (by simp [hst'])
    · exact decode_log_needMore _ _ _ _ h hst'

/-- In error recovery with no resync point buffered, the decode call
moves the whole buffer into the accumulator and reports "no item yet". -/
theorem errorScan_consumes (st : LogcatStringDecoder) (src : Bytes)
    (herr : st.is_in_error_state = true) (hf : findResync src = none) :
    st.decode src = .needMore ⟨true, st.error_data ++ src⟩ [] := by
  unfold LogcatStringDecoder.decode LogcatStringDecoder.scan_out_error_state
  rw [if_pos (by simp [herr]), hf, herr]

/-- Claim C8, counterexample: in error recovery with accumulator `"g"`
and buffered bytes `"ar"` (no resync point), decode reports "no item yet"
because more bytes are needed, yet the buffered suffix is emptied and the
accumulator grows — the call is not a no-op. -/
theorem C8_counterexample :
    LogcatStringDecoder.decode ⟨true, [103]⟩ [97, 114] =
      .needMore ⟨true, [103, 97, 114]⟩ [] ∧
    ((⟨true, [103, 97, 114]⟩ : LogcatStringDecoder) ≠ ⟨true, [103]⟩ ∧
      ([] : Bytes) ≠ [97, 114]) := by
  exact ⟨by decide, by decide, by decide⟩

/-- Claim C8, amended: a decode call that reports "no item yet" is a
no-op apart from capacity-reservation hints — the undecoded suffix (and,
for the text decoder, the state) is unchanged — for the binary decoder
always, and for the text decoder whenever it neither starts nor ends the
call in error recovery; in error recovery with no resync point buffered,
the buffered bytes instead move into the error accumulator (none are
lost) before "no item yet" is reported, so the call can still be safely
retried. -/
theorem C8_insufficient_data_no_op :
    (∀ (src b' : Bytes),
      LogcatBinaryDecoder.decode src = .needMore b' → b' = src) ∧
    (∀ (st st' : LogcatStringDecoder) (src b' : Bytes),
      st.is_in_error_state = false → st'.is_in_error_state = false →
      st.decode src = .needMore st' b' → st' = st ∧ b' = src) ∧
    (∀ (st : LogcatStringDecoder) (src : Bytes),
      st.is_in_error_state = true → findResync src = none →
      st.decode src = .needMore ⟨true, st.error_data ++ src⟩ []) :=
  ⟨binDecode_needMore_unchanged,
   textDecode_needMore_unchanged,
   errorScan_consumes⟩

/-- Witness for `C8_insufficient_data_no_op` at concrete inputs: a 2-byte
binary buffer, the 1-byte text buffer `"["`, and the error-recovery state
with accumulator `"g"` and buffer `"ar"`. -/
theorem C8_insufficient_data_witness :
    ([5, 0] : Bytes) = [5, 0] ∧
    ((⟨false, []⟩ : LogcatStringDecoder) = ⟨false, []⟩ ∧
      ([91] : Bytes) = [91]) ∧
    LogcatStringDecoder.decode ⟨true, [103]⟩ [97, 114] =
      .needMore ⟨true, [103] ++ [97, 114]⟩ [] :=
  ⟨C8_insufficient_data_no_op.1 [5, 0] [5, 0] (by decide),
   C8_insufficient_data_no_op.2.1 ⟨false, []⟩ ⟨false, []⟩ [91] [91]
     (by decide) (by decide) (by decide),
   C8_insufficient_data_no_op.2.2 ⟨true, [103]⟩ [97, 114] (by decide)
     (by decide)⟩

theorem scanWhileP_append (p : Nat → Bool) (xs : Bytes) (y : Nat)
    (ys : Bytes) (h1 : ∀ c ∈ xs, p c = true) (h2 : p y = false) :
    scanWhileP p (xs ++ y :: ys) = some (y :: ys) := by
  induction xs with
  | nil => simp [scanWhileP, h2]
  | cons c cs ih =>
    have hc := h1 c (List.mem_cons_self _ _)
    simp [scanWhileP, hc, ih (fun x hx => h1 x (List.mem_cons_of_mem _ hx))]

theorem spanScan_append (p : Nat → Bool) (xs : Bytes) (y : Nat)
    (ys : Bytes) (h1 : ∀ c ∈ xs, p c = true) (h2 : p y = false) :
    spanScan p (xs ++ y :: ys) = some (xs, y :: ys) := by
  induction xs with
  | nil => simp [spanScan, h2]
  | cons c cs ih =>
    have hc := h1 c (List.mem_cons_self _ _)
    simp [spanScan, hc, ih (fun x hx => h1 x (List.mem_cons_of_mem _ hx))]

theorem findHdrEnd_append (acc tag rest : Bytes) (hrest : rest ≠ [])
    (hno : ∀ k < tag.length,
      ((tag ++ headerEnd ++ rest).drop k).take 3 ≠ headerEnd) :
    findHdrEnd acc (tag ++ (headerEnd ++ rest)) =
      some (acc ++ tag, headerEnd ++ rest) := by
  induction tag generalizing acc with
  | nil =>
    obtain ⟨r0, rest', rfl⟩ := List.exists_cons_of_ne_nil hrest
    simp [findHdrEnd, headerEnd, strBytes]
  | cons c tag' ih =>
    have h0 : (c :: (tag' ++ (headerEnd ++ rest))).take 3 ≠ headerEnd := by
      have := hno 0 (by simp)
      simpa using this
    have hlen : (tag' ++ (headerEnd ++ rest)).length + 1 > 3 := by
      simp [headerEnd, strBytes]
      omega
    simp only [List.cons_append, findHdrEnd, List.append_eq]
    rw [if_pos]
    · rw [ih (acc ++ [c]) (fun k hk => by
        have := hno (k + 1) (by simp; omega)
        simpa using this)]
      simp
    · simp only [Bool.and_eq_true, decide_eq_true_eq]
      constructor
      · omega
      · simpa using h0

theorem findMsgEnd_append (acc msg rest : Bytes)
    (hlen : 23 ≤ rest.length)
    (hmark : (startsWithB beginningMarker rest ||
      startsWithB (strBytes "[ ") rest) = true)
    (hno : ∀ k < msg.length,
      resyncHitB ((msg ++ 10 :: 10 :: rest).drop k) = false) :
    findMsgEnd acc (msg ++ 10 :: 10 :: rest) =
      some (acc ++ msg, 10 :: 10 :: rest) := by
  induction msg generalizing acc with
  | nil =>
    unfold findMsgEnd
    rw [if_neg (by simp; omega)]
    simp only [List.nil_append, resyncHitB, hmark]
    simp
  | cons c msg' ih =>
    obtain ⟨x, X, hX⟩ : ∃ x X, msg' ++ 10 :: 10 :: rest = x :: X := by
      cases hm : msg' ++ 10 :: 10 :: rest with
      | nil => simp at hm
      | cons a l => exact ⟨a, l, rfl⟩
    unfold findMsgEnd
    rw [if_neg (by simp; omega)]
    simp only [List.cons_append, hX]
    rw [if_neg (by
      have h0 := hno 0 (by simp)
      simp only [List.drop_zero, List.cons_append, hX] at h0
      simp [h0])]
    rw [← hX]
    rw [ih (acc ++ [c]) (fun k hk => by
      have := hno (k + 1) (by simp; omega)
      simpa using this)]
    simp

theorem u32FromDigits_some (ds : Bytes) (h1 : ds ≠ [])
    (h2 : ∀ c ∈ ds, isDigitB c = true)
    (h3 : digitsToNat ds < 4294967296) :
    u32FromDigits ds = some (digitsToNat ds) := by
  unfold u32FromDigits
  rw [if_pos]
  simp only [Bool.and_eq_true, decide_eq_true_eq]
  refine ⟨⟨by simpa using h1, ?_⟩, h3⟩
  rw [List.all_eq_true]
  exact h2

theorem word_ne_space {c : Nat} (h : isWordB c = true) : c ≠ 32 := by
  simp only [isWordB, isAlnumB, isAlphaB, isDigitB, Bool.or_eq_true,
    Bool.and_eq_true, decide_eq_true_eq] at h
  omega

theorem digit_ne_space {c : Nat} (h : isDigitB c = true) : c ≠ 32 := by
  simp only [isDigitB, Bool.and_eq_true, decide_eq_true_eq] at h
  omega

theorem digit_isWord {c : Nat} (h : isDigitB c = true) : isWordB c = true := by
  simp only [isDigitB, Bool.and_eq_true, decide_eq_true_eq] at h
  simp only [isWordB, isAlnumB, isAlphaB, isDigitB, Bool.or_eq_true,
    Bool.and_eq_true, decide_eq_true_eq]
  omega

theorem chronoOK_length {b : Bytes} (h : chronoOK b = true) :
    b.length = 35 := by
  unfold chronoOK at h
  simp only [Bool.and_eq_true, decide_eq_true_eq] at h
  exact h.1.1.1.1.1.1.1.1.1.1.1.1.1.1.1.1.1

theorem decode_log_uid_case
    (ts sp tok1 sp2 num2 sp3 num3 tag msg more : Bytes) (lvl : Nat)
    (hts : chronoOK ts = true)
    (hsp : sp ≠ []) (hspc : ∀ c ∈ sp, c = 32)
    (htok : tok1 ≠ []) (htokc : ∀ c ∈ tok1, isWordB c = true)
    (hsp2c : ∀ c ∈ sp2, c = 32)
    (hnum2 : num2 ≠ []) (hnum2c : ∀ c ∈ num2, isDigitB c = true)
    (hv2 : digitsToNat num2 < 4294967296)
    (hsp3c : ∀ c ∈ sp3, c = 32)
    (hnum3 : num3 ≠ []) (hnum3c : ∀ c ∈ num3, isDigitB c = true)
    (hv3 : digitsToNat num3 < 4294967296)
    (hmore : 21 ≤ more.length)
    (hnotag : ∀ k < tag.length,
      (((tag ++ (headerEnd ++ (msg ++ (10 :: 10 :: 91 :: 32 :: more))))).drop k).take 3 ≠ headerEnd)
    (hnomsg : ∀ k < msg.length,
      resyncHitB (((msg ++ (10 :: 10 :: 91 :: 32 :: more))).drop k) = false) :
    LogcatStringDecoder.decode ⟨false, []⟩ (strBytes "[ " ++ (ts ++ (sp ++ (tok1 ++ (58 :: (sp2 ++ (num2 ++ (58 :: (sp3 ++ (num3 ++ (32 :: lvl :: 47 :: (tag ++ (headerEnd ++ (msg ++ (10 :: 10 :: 91 :: 32 :: more))))))))))))))) =
      .item (.LogMessage
        { timestamp := ts,
          uid := some (utf8LossyDecode tok1),
          pid := digitsToNat num2,
          tid := digitsToNat num3,
          level := levelOfChar lvl,
          tag := trimCp (utf8LossyDecode tag),
          message := msg })
        ⟨false, []⟩ (91 :: 32 :: more) := by
  have hts35 := chronoOK_length hts
  obtain ⟨c0, sp', rfl⟩ := List.exists_cons_of_ne_nil hsp
  have hc0 : c0 = 32 := hspc _ (List.mem_cons_self _ _)
  subst hc0
  obtain ⟨e, tok1', rfl⟩ := List.exists_cons_of_ne_nil htok
  have he : isWordB e = true := htokc _ (List.mem_cons_self _ _)
  obtain ⟨e2, num2', rfl⟩ := List.exists_cons_of_ne_nil hnum2
  have he2 : isDigitB e2 = true := hnum2c _ (List.mem_cons_self _ _)
  obtain ⟨e3, num3', rfl⟩ := List.exists_cons_of_ne_nil hnum3
  have he3 : isDigitB e3 = true := hnum3c _ (List.mem_cons_self _ _)
  simp only [List.cons_append]
  rw [show strBytes "[ " ++ (ts ++ (32 :: (sp' ++ (e :: (tok1' ++ (58 :: (sp2 ++ (e2 :: (num2' ++ (58 :: (sp3 ++ (e3 :: (num3' ++ (32 :: lvl :: 47 :: (tag ++ (headerEnd ++ (msg ++ (10 :: 10 :: 91 :: 32 :: more)))))))))))))))))) = (91 :: 32 :: (ts ++ (32 :: (sp' ++ (e :: (tok1' ++ (58 :: (sp2 ++ (e2 :: (num2' ++ (58 :: (sp3 ++ (e3 :: (num3' ++ (32 :: lvl :: 47 :: (tag ++ (headerEnd ++ (msg ++ (10 :: 10 :: 91 :: 32 :: more))))))))))))))))))) from rfl]
  simp only [LogcatStringDecoder.decode]
  rw [if_neg (by simp)]
  rw [if_neg (by decide), if_neg (by decide)]
  unfold LogcatStringDecoder.decode_log
  rw [if_neg (by simp [headerEnd, strBytes]; omega)]
  rw [if_neg (by
    rw [show ((91 :: 32 :: (ts ++ (32 :: (sp' ++ (e :: (tok1' ++ (58 :: (sp2 ++ (e2 :: (num2' ++ (58 :: (sp3 ++ (e3 :: (num3' ++ (32 :: lvl :: 47 :: (tag ++ (headerEnd ++ (msg ++ (10 :: 10 :: 91 :: 32 :: more)))))))))))))))))))).take 2 = strBytes "[ " from rfl]
    simp)]
  rw [show ((91 :: 32 :: (ts ++ (32 :: (sp' ++ (e :: (tok1' ++ (58 :: (sp2 ++ (e2 :: (num2' ++ (58 :: (sp3 ++ (e3 :: (num3' ++ (32 :: lvl :: 47 :: (tag ++ (headerEnd ++ (msg ++ (10 :: 10 :: 91 :: 32 :: more)))))))))))))))))))).drop 2 = (ts ++ (32 :: (sp' ++ (e :: (tok1' ++ (58 :: (sp2 ++ (e2 :: (num2' ++ (58 :: (sp3 ++ (e3 :: (num3' ++ (32 :: lvl :: 47 :: (tag ++ (headerEnd ++ (msg ++ (10 :: 10 :: 91 :: 32 :: more)))))))))))))))))) from rfl]
  rw [List.take_left' hts35]
  rw [if_neg (by simp [hts])]
  rw [show ((91 :: 32 :: (ts ++ (32 :: (sp' ++ (e :: (tok1' ++ (58 :: (sp2 ++ (e2 :: (num2' ++ (58 :: (sp3 ++ (e3 :: (num3' ++ (32 :: lvl :: 47 :: (tag ++ (headerEnd ++ (msg ++ (10 :: 10 :: 91 :: 32 :: more)))))))))))))))))))).drop 37 = ((ts ++ (32 :: (sp' ++ (e :: (tok1' ++ (58 :: (sp2 ++ (e2 :: (num2' ++ (58 :: (sp3 ++ (e3 :: (num3' ++ (32 :: lvl :: 47 :: (tag ++ (headerEnd ++ (msg ++ (10 :: 10 :: 91 :: 32 :: more))))))))))))))))))).drop 35 from rfl]
  rw [List.drop_left' hts35]
  dsimp only
  rw [if_neg (by simp)]
  have hscan1 : scanWhileP (fun c => c = 32) (32 :: (sp' ++ (e :: (tok1' ++ (58 :: (sp2 ++ (e2 :: (num2' ++ (58 :: (sp3 ++ (e3 :: (num3' ++ (32 :: lvl :: 47 :: (tag ++ (headerEnd ++ (msg ++ (10 :: 10 :: 91 :: 32 :: more))))))))))))))))) = some (e :: (tok1' ++ (58 :: (sp2 ++ (e2 :: (num2' ++ (58 :: (sp3 ++ (e3 :: (num3' ++ (32 :: lvl :: 47 :: (tag ++ (headerEnd ++ (msg ++ (10 :: 10 :: 91 :: 32 :: more))))))))))))))) := by
    have := scanWhileP_append (fun c => decide (c = 32))
      (32 :: sp') e (tok1' ++ (58 :: (sp2 ++ (e2 :: (num2' ++ (58 :: (sp3 ++ (e3 :: (num3' ++ (32 :: lvl :: 47 :: (tag ++ (headerEnd ++ (msg ++ (10 :: 10 :: 91 :: 32 :: more))))))))))))))
      (fun c hc => by
        rcases List.mem_cons.mp hc with h | h
        · simp [h]
        · simp [hspc c (List.mem_cons_of_mem _ h)])
      (by simp [word_ne_space he])
    simpa using this
  rw [hscan1]
  dsimp only
  rw [if_neg (by simp [he])]
  have hspan1 : spanScan isWordB (e :: (tok1' ++ (58 :: (sp2 ++ (e2 :: (num2' ++ (58 :: (sp3 ++ (e3 :: (num3' ++ (32 :: lvl :: 47 :: (tag ++ (headerEnd ++ (msg ++ (10 :: 10 :: 91 :: 32 :: more))))))))))))))) = some (e :: tok1', 58 :: (sp2 ++ (e2 :: (num2' ++ (58 :: (sp3 ++ (e3 :: (num3' ++ (32 :: lvl :: 47 :: (tag ++ (headerEnd ++ (msg ++ (10 :: 10 :: 91 :: 32 :: more))))))))))))) := by
    have := spanScan_append isWordB (e :: tok1') 58 (sp2 ++ (e2 :: (num2' ++ (58 :: (sp3 ++ (e3 :: (num3' ++ (32 :: lvl :: 47 :: (tag ++ (headerEnd ++ (msg ++ (10 :: 10 :: 91 :: 32 :: more))))))))))))
      htokc (by decide)
    simpa using this
  rw [hspan1]
  dsimp only
  rw [if_neg (by simp)]
  have hscan2 : scanWhileP (fun c => c = 32) (sp2 ++ (e2 :: (num2' ++ (58 :: (sp3 ++ (e3 :: (num3' ++ (32 :: lvl :: 47 :: (tag ++ (headerEnd ++ (msg ++ (10 :: 10 :: 91 :: 32 :: more)))))))))))) = some (e2 :: (num2' ++ (58 :: (sp3 ++ (e3 :: (num3' ++ (32 :: lvl :: 47 :: (tag ++ (headerEnd ++ (msg ++ (10 :: 10 :: 91 :: 32 :: more))))))))))) := by
    have := scanWhileP_append (fun c => decide (c = 32)) (sp2) e2 (num2' ++ (58 :: (sp3 ++ (e3 :: (num3' ++ (32 :: lvl :: 47 :: (tag ++ (headerEnd ++ (msg ++ (10 :: 10 :: 91 :: 32 :: more))))))))))
      (fun c hc => by simp [hsp2c c hc])
      (by simp [digit_ne_space he2])
    simpa using this
  rw [hscan2]
  dsimp only
  rw [if_neg (by simp [he2])]
  have hspan2 : spanScan isDigitB (e2 :: (num2' ++ (58 :: (sp3 ++ (e3 :: (num3' ++ (32 :: lvl :: 47 :: (tag ++ (headerEnd ++ (msg ++ (10 :: 10 :: 91 :: 32 :: more))))))))))) =
      some (e2 :: num2', 58 :: (sp3 ++ (e3 :: (num3' ++ (32 :: lvl :: 47 :: (tag ++ (headerEnd ++ (msg ++ (10 :: 10 :: 91 :: 32 :: more))))))))) := by
    have := spanScan_append isDigitB (e2 :: num2') 58 (sp3 ++ (e3 :: (num3' ++ (32 :: lvl :: 47 :: (tag ++ (headerEnd ++ (msg ++ (10 :: 10 :: 91 :: 32 :: more))))))))
      hnum2c (by decide)
    simpa using this
  rw [hspan2]
  dsimp only
  rw [if_pos rfl]
  have hscan3 : scanWhileP (fun c => c = 32) (sp3 ++ (e3 :: (num3' ++ (32 :: lvl :: 47 :: (tag ++ (headerEnd ++ (msg ++ (10 :: 10 :: 91 :: 32 :: more)))))))) = some (e3 :: (num3' ++ (32 :: lvl :: 47 :: (tag ++ (headerEnd ++ (msg ++ (10 :: 10 :: 91 :: 32 :: more))))))) := by
    have := scanWhileP_append (fun c => decide (c = 32)) (sp3) e3 (num3' ++ (32 :: lvl :: 47 :: (tag ++ (headerEnd ++ (msg ++ (10 :: 10 :: 91 :: 32 :: more))))))
      (fun c hc => by simp [hsp3c c hc])
      (by simp [digit_ne_space he3])
    simpa using this
  rw [hscan3]
  dsimp only
  rw [if_neg (by simp [he3])]
  have hspan3 : spanScan isDigitB (e3 :: (num3' ++ (32 :: lvl :: 47 :: (tag ++ (headerEnd ++ (msg ++ (10 :: 10 :: 91 :: 32 :: more))))))) = some (e3 :: num3', (32 :: lvl :: 47 :: (tag ++ (headerEnd ++ (msg ++ (10 :: 10 :: 91 :: 32 :: more)))))) := by
    have := spanScan_append isDigitB (e3 :: num3') 32
      (lvl :: 47 :: (tag ++ (headerEnd ++ (msg ++ (10 :: 10 :: 91 :: 32 :: more))))) hnum3c (by decide)
    simpa using this
  rw [hspan3]
  dsimp only
  unfold finishHeader
  rw [u32FromDigits_some _ (by simp) hnum2c hv2,
    u32FromDigits_some _ (by simp) hnum3c hv3]
  dsimp only
  rw [if_neg (by simp)]
  rw [if_neg (by decide)]
  have hhdr : findHdrEnd [] (tag ++ (headerEnd ++ (msg ++ (10 :: 10 :: 91 :: 32 :: more)))) =
      some (tag, headerEnd ++ (msg ++ (10 :: 10 :: 91 :: 32 :: more))) := by
    have := findHdrEnd_append [] tag (msg ++ (10 :: 10 :: 91 :: 32 :: more)) (by simp)
      (fun k hk => by simpa [List.append_assoc] using hnotag k hk)
    simpa using this
  rw [hhdr]
  dsimp only
  rw [show (headerEnd ++ (msg ++ (10 :: 10 :: 91 :: 32 :: more))).drop 3 = (msg ++ (10 :: 10 :: 91 :: 32 :: more)) from rfl]
  have hmsgEnd : findMsgEnd [] (msg ++ (10 :: 10 :: 91 :: 32 :: more)) =
      some (msg, 10 :: 10 :: 91 :: 32 :: more) := by
    have := findMsgEnd_append [] msg (91 :: 32 :: more)
      (by simp; omega) (by simp [startsWithB, strBytes])
      (fun k hk => by simpa using hnomsg k hk)
    simpa using this
  rw [hmsgEnd]
  dsimp only
  rfl

theorem decode_log_pid_case
    (ts sp tok1 sp2 num2 tag msg more : Bytes) (lvl : Nat)
    (hts : chronoOK ts = true)
    (hsp : sp ≠ []) (hspc : ∀ c ∈ sp, c = 32)
    (htok : tok1 ≠ []) (htokc : ∀ c ∈ tok1, isDigitB c = true)
    (hv1 : digitsToNat tok1 < 4294967296)
    (hsp2c : ∀ c ∈ sp2, c = 32)
    (hnum2 : num2 ≠ []) (hnum2c : ∀ c ∈ num2, isDigitB c = true)
    (hv2 : digitsToNat num2 < 4294967296)
    (hmore : 21 ≤ more.length)
    (hnotag : ∀ k < tag.length,
      (((tag ++ (headerEnd ++ (msg ++ (10 :: 10 :: 91 :: 32 :: more))))).drop k).take 3 ≠ headerEnd)
    (hnomsg : ∀ k < msg.length,
      resyncHitB (((msg ++ (10 :: 10 :: 91 :: 32 :: more))).drop k) = false) :
    LogcatStringDecoder.decode ⟨false, []⟩ (strBytes "[ " ++ (ts ++ (sp ++ (tok1 ++ (58 :: (sp2 ++ (num2 ++ (32 :: lvl :: 47 :: (tag ++ (headerEnd ++ (msg ++ (10 :: 10 :: 91 :: 32 :: more)))))))))))) =
      .item (.LogMessage
        { timestamp := ts,
          uid := none,
          pid := digitsToNat tok1,
          tid := digitsToNat num2,
          level := levelOfChar lvl,
          tag := trimCp (utf8LossyDecode tag),
          message := msg })
        ⟨false, []⟩ (91 :: 32 :: more) := by
  have hts35 := chronoOK_length hts
  obtain ⟨c0, sp', rfl⟩ := List.exists_cons_of_ne_nil hsp
  have hc0 : c0 = 32 := hspc _ (List.mem_cons_self _ _)
  subst hc0
  obtain ⟨e, tok1', rfl⟩ := List.exists_cons_of_ne_nil htok
  have he : isDigitB e = true := htokc _ (List.mem_cons_self _ _)
  obtain ⟨e2, num2', rfl⟩ := List.exists_cons_of_ne_nil hnum2
  have he2 : isDigitB e2 = true := hnum2c _ (List.mem_cons_self _ _)
  simp only [List.cons_append]
  rw [show strBytes "[ " ++ (ts ++ (32 :: (sp' ++ (e :: (tok1' ++ (58 :: (sp2 ++ (e2 :: (num2' ++ (32 :: lvl :: 47 :: (tag ++ (headerEnd ++ (msg ++ (10 :: 10 :: 91 :: 32 :: more)))))))))))))) = (91 :: 32 :: (ts ++ (32 :: (sp' ++ (e :: (tok1' ++ (58 :: (sp2 ++ (e2 :: (num2' ++ (32 :: lvl :: 47 :: (tag ++ (headerEnd ++ (msg ++ (10 :: 10 :: 91 :: 32 :: more))))))))))))))) from rfl]
  simp only [LogcatStringDecoder.decode]
  rw [if_neg (by simp)]
  rw [if_neg (by decide), if_neg (by decide)]
  unfold LogcatStringDecoder.decode_log
  rw [if_neg (by simp [headerEnd, strBytes]; omega)]
  rw [if_neg (by
    rw [show ((91 :: 32 :: (ts ++ (32 :: (sp' ++ (e :: (tok1' ++ (58 :: (sp2 ++ (e2 :: (num2' ++ (32 :: lvl :: 47 :: (tag ++ (headerEnd ++ (msg ++ (10 :: 10 :: 91 :: 32 :: more)))))))))))))))).take 2 = strBytes "[ " from rfl]
    simp)]
  rw [show ((91 :: 32 :: (ts ++ (32 :: (sp' ++ (e :: (tok1' ++ (58 :: (sp2 ++ (e2 :: (num2' ++ (32 :: lvl :: 47 :: (tag ++ (headerEnd ++ (msg ++ (10 :: 10 :: 91 :: 32 :: more)))))))))))))))).drop 2 = (ts ++ (32 :: (sp' ++ (e :: (tok1' ++ (58 :: (sp2 ++ (e2 :: (num2' ++ (32 :: lvl :: 47 :: (tag ++ (headerEnd ++ (msg ++ (10 :: 10 :: 91 :: 32 :: more)))))))))))))) from rfl]
  rw [List.take_left' hts35]
  rw [if_neg (by simp [hts])]
  rw [show ((91 :: 32 :: (ts ++ (32 :: (sp' ++ (e :: (tok1' ++ (58 :: (sp2 ++ (e2 :: (num2' ++ (32 :: lvl :: 47 :: (tag ++ (headerEnd ++ (msg ++ (10 :: 10 :: 91 :: 32 :: more)))))))))))))))).drop 37 = ((ts ++ (32 :: (sp' ++ (e :: (tok1' ++ (58 :: (sp2 ++ (e2 :: (num2' ++ (32 :: lvl :: 47 :: (tag ++ (headerEnd ++ (msg ++ (10 :: 10 :: 91 :: 32 :: more))))))))))))))).drop 35 from rfl]
  rw [List.drop_left' hts35]
  dsimp only
  rw [if_neg (by simp)]
  have hscan1 : scanWhileP (fun c => c = 32) (32 :: (sp' ++ (e :: (tok1' ++ (58 :: (sp2 ++ (e2 :: (num2' ++ (32 :: lvl :: 47 :: (tag ++ (headerEnd ++ (msg ++ (10 :: 10 :: 91 :: 32 :: more))))))))))))) = some (e :: (tok1' ++ (58 :: (sp2 ++ (e2 :: (num2' ++ (32 :: lvl :: 47 :: (tag ++ (headerEnd ++ (msg ++ (10 :: 10 :: 91 :: 32 :: more))))))))))) := by
    have := scanWhileP_append (fun c => decide (c = 32))
      (32 :: sp') e (tok1' ++ (58 :: (sp2 ++ (e2 :: (num2' ++ (32 :: lvl :: 47 :: (tag ++ (headerEnd ++ (msg ++ (10 :: 10 :: 91 :: 32 :: more))))))))))
      (fun c hc => by
        rcases List.mem_cons.mp hc with h | h
        · simp [h]
        · simp [hspc c (List.mem_cons_of_mem _ h)])
      (by simp [digit_ne_space he])
    simpa using this
  rw [hscan1]
  dsimp only
  rw [if_neg (by simp [digit_isWord he])]
  have hspan1 : spanScan isWordB (e :: (tok1' ++ (58 :: (sp2 ++ (e2 :: (num2' ++ (32 :: lvl :: 47 :: (tag ++ (headerEnd ++ (msg ++ (10 :: 10 :: 91 :: 32 :: more))))))))))) = some (e :: tok1', 58 :: (sp2 ++ (e2 :: (num2' ++ (32 :: lvl :: 47 :: (tag ++ (headerEnd ++ (msg ++ (10 :: 10 :: 91 :: 32 :: more))))))))) := by
    have := spanScan_append isWordB (e :: tok1') 58 (sp2 ++ (e2 :: (num2' ++ (32 :: lvl :: 47 :: (tag ++ (headerEnd ++ (msg ++ (10 :: 10 :: 91 :: 32 :: more))))))))
      (fun c hc => digit_isWord (htokc c hc)) (by decide)
    simpa using this
  rw [hspan1]
  dsimp only
  rw [if_neg (by simp)]
  have hscan2 : scanWhileP (fun c => c = 32) (sp2 ++ (e2 :: (num2' ++ (32 :: lvl :: 47 :: (tag ++ (headerEnd ++ (msg ++ (10 :: 10 :: 91 :: 32 :: more)))))))) = some (e2 :: (num2' ++ (32 :: lvl :: 47 :: (tag ++ (headerEnd ++ (msg ++ (10 :: 10 :: 91 :: 32 :: more))))))) := by
    have := scanWhileP_append (fun c => decide (c = 32)) (sp2) e2 (num2' ++ (32 :: lvl :: 47 :: (tag ++ (headerEnd ++ (msg ++ (10 :: 10 :: 91 :: 32 :: more))))))
      (fun c hc => by simp [hsp2c c hc])
      (by simp [digit_ne_space he2])
    simpa using this
  rw [hscan2]
  dsimp only
  rw [if_neg (by simp [he2])]
  have hspan2 : spanScan isDigitB (e2 :: (num2' ++ (32 :: lvl :: 47 :: (tag ++ (headerEnd ++ (msg ++ (10 :: 10 :: 91 :: 32 :: more))))))) =
      some (e2 :: num2', (32 :: lvl :: 47 :: (tag ++ (headerEnd ++ (msg ++ (10 :: 10 :: 91 :: 32 :: more)))))) := by
    have := spanScan_append isDigitB (e2 :: num2') 32
      (lvl :: 47 :: (tag ++ (headerEnd ++ (msg ++ (10 :: 10 :: 91 :: 32 :: more))))) hnum2c (by decide)
    simpa using this
  rw [hspan2]
  dsimp only
  rw [if_neg (by decide)]
  rw [if_neg (by
    simp only [not_not, List.all_eq_true]
    exact fun c hc => htokc c hc)]
  unfold finishHeader
  rw [u32FromDigits_some _ (by simp) htokc hv1,
    u32FromDigits_some _ (by simp) hnum2c hv2]
  dsimp only
  rw [if_neg (by simp)]
  rw [if_neg (by decide)]
  have hhdr : findHdrEnd [] (tag ++ (headerEnd ++ (msg ++ (10 :: 10 :: 91 :: 32 :: more)))) =
      some (tag, headerEnd ++ (msg ++ (10 :: 10 :: 91 :: 32 :: more))) := by
    have := findHdrEnd_append [] tag (msg ++ (10 :: 10 :: 91 :: 32 :: more)) (by simp)
      (fun k hk => by simpa [List.append_assoc] using hnotag k hk)
    simpa using this
  rw [hhdr]
  dsimp only
  rw [show (headerEnd ++ (msg ++ (10 :: 10 :: 91 :: 32 :: more))).drop 3 = (msg ++ (10 :: 10 :: 91 :: 32 :: more)) from rfl]
  have hmsgEnd : findMsgEnd [] (msg ++ (10 :: 10 :: 91 :: 32 :: more)) =
      some (msg, 10 :: 10 :: 91 :: 32 :: more) := by
    have := findMsgEnd_append [] msg (91 :: 32 :: more)
      (by simp; omega) (by simp [startsWithB, strBytes])
      (fun k hk => by simpa using hnomsg k hk)
    simpa using this
  rw [hmsgEnd]
  dsimp only
  rfl

theorem decode_log_nonnumeric_case
    (ts sp tok1 sp2 num2 tag msg more : Bytes) (lvl : Nat)
    (hts : chronoOK ts = true)
    (hsp : sp ≠ []) (hspc : ∀ c ∈ sp, c = 32)
    (htok : tok1 ≠ []) (htokc : ∀ c ∈ tok1, isWordB c = true)
    (hnotall : tok1.all isDigitB = false)
    (hsp2c : ∀ c ∈ sp2, c = 32)
    (hnum2 : num2 ≠ []) (hnum2c : ∀ c ∈ num2, isDigitB c = true)
    (hmore : 21 ≤ more.length) :
    LogcatStringDecoder.decode ⟨false, []⟩ (strBytes "[ " ++ (ts ++ (sp ++ (tok1 ++ (58 :: (sp2 ++ (num2 ++ (32 :: lvl :: 47 :: (tag ++ (headerEnd ++ (msg ++ (10 :: 10 :: 91 :: 32 :: more)))))))))))) =
      LogcatStringDecoder.enter_error_state ⟨false, []⟩ (strBytes "[ " ++ (ts ++ (sp ++ (tok1 ++ (58 :: (sp2 ++ (num2 ++ (32 :: lvl :: 47 :: (tag ++ (headerEnd ++ (msg ++ (10 :: 10 :: 91 :: 32 :: more)))))))))))) := by
  have hts35 := chronoOK_length hts
  obtain ⟨c0, sp', rfl⟩ := List.exists_cons_of_ne_nil hsp
  have hc0 : c0 = 32 := hspc _ (List.mem_cons_self _ _)
  subst hc0
  obtain ⟨e, tok1', rfl⟩ := List.exists_cons_of_ne_nil htok
  have he : isWordB e = true := htokc _ (List.mem_cons_self _ _)
  obtain ⟨e2, num2', rfl⟩ := List.exists_cons_of_ne_nil hnum2
  have he2 : isDigitB e2 = true := hnum2c _ (List.mem_cons_self _ _)
  simp only [List.cons_append]
  rw [show strBytes "[ " ++ (ts ++ (32 :: (sp' ++ (e :: (tok1' ++ (58 :: (sp2 ++ (e2 :: (num2' ++ (32 :: lvl :: 47 :: (tag ++ (headerEnd ++ (msg ++ (10 :: 10 :: 91 :: 32 :: more)))))))))))))) = (91 :: 32 :: (ts ++ (32 :: (sp' ++ (e :: (tok1' ++ (58 :: (sp2 ++ (e2 :: (num2' ++ (32 :: lvl :: 47 :: (tag ++ (headerEnd ++ (msg ++ (10 :: 10 :: 91 :: 32 :: more))))))))))))))) from rfl]
  simp only [LogcatStringDecoder.decode]
  rw [if_neg (by simp)]
  rw [if_neg (by decide), if_neg (by decide)]
  unfold LogcatStringDecoder.decode_log
  rw [if_neg (by simp [headerEnd, strBytes]; omega)]
  rw [if_neg (by
    rw [show ((91 :: 32 :: (ts ++ (32 :: (sp' ++ (e :: (tok1' ++ (58 :: (sp2 ++ (e2 :: (num2' ++ (32 :: lvl :: 47 :: (tag ++ (headerEnd ++ (msg ++ (10 :: 10 :: 91 :: 32 :: more)))))))))))))))).take 2 = strBytes "[ " from rfl]
    simp)]
  rw [show ((91 :: 32 :: (ts ++ (32 :: (sp' ++ (e :: (tok1' ++ (58 :: (sp2 ++ (e2 :: (num2' ++ (32 :: lvl :: 47 :: (tag ++ (headerEnd ++ (msg ++ (10 :: 10 :: 91 :: 32 :: more)))))))))))))))).drop 2 = (ts ++ (32 :: (sp' ++ (e :: (tok1' ++ (58 :: (sp2 ++ (e2 :: (num2' ++ (32 :: lvl :: 47 :: (tag ++ (headerEnd ++ (msg ++ (10 :: 10 :: 91 :: 32 :: more)))))))))))))) from rfl]
  rw [List.take_left' hts35]
  rw [if_neg (by simp [hts])]
  rw [show ((91 :: 32 :: (ts ++ (32 :: (sp' ++ (e :: (tok1' ++ (58 :: (sp2 ++ (e2 :: (num2' ++ (32 :: lvl :: 47 :: (tag ++ (headerEnd ++ (msg ++ (10 :: 10 :: 91 :: 32 :: more)))))))))))))))).drop 37 = ((ts ++ (32 :: (sp' ++ (e :: (tok1' ++ (58 :: (sp2 ++ (e2 :: (num2' ++ (32 :: lvl :: 47 :: (tag ++ (headerEnd ++ (msg ++ (10 :: 10 :: 91 :: 32 :: more))))))))))))))).drop 35 from rfl]
  rw [List.drop_left' hts35]
  dsimp only
  rw [if_neg (by simp)]
  have hscan1 : scanWhileP (fun c => c = 32) (32 :: (sp' ++ (e :: (tok1' ++ (58 :: (sp2 ++ (e2 :: (num2' ++ (32 :: lvl :: 47 :: (tag ++ (headerEnd ++ (msg ++ (10 :: 10 :: 91 :: 32 :: more))))))))))))) = some (e :: (tok1' ++ (58 :: (sp2 ++ (e2 :: (num2' ++ (32 :: lvl :: 47 :: (tag ++ (headerEnd ++ (msg ++ (10 :: 10 :: 91 :: 32 :: more))))))))))) := by
    have := scanWhileP_append (fun c => decide (c = 32))
      (32 :: sp') e (tok1' ++ (58 :: (sp2 ++ (e2 :: (num2' ++ (32 :: lvl :: 47 :: (tag ++ (headerEnd ++ (msg ++ (10 :: 10 :: 91 :: 32 :: more))))))))))
      (fun c hc => by
        rcases List.mem_cons.mp hc with h | h
        · simp [h]
        · simp [hspc c (List.mem_cons_of_mem _ h)])
      (by simp [word_ne_space he])
    simpa using this
  rw [hscan1]
  dsimp only
  rw [if_neg (by simp [he])]
  have hspan1 : spanScan isWordB (e :: (tok1' ++ (58 :: (sp2 ++ (e2 :: (num2' ++ (32 :: lvl :: 47 :: (tag ++ (headerEnd ++ (msg ++ (10 :: 10 :: 91 :: 32 :: more))))))))))) = some (e :: tok1', 58 :: (sp2 ++ (e2 :: (num2' ++ (32 :: lvl :: 47 :: (tag ++ (headerEnd ++ (msg ++ (10 :: 10 :: 91 :: 32 :: more))))))))) := by
    have := spanScan_append isWordB (e :: tok1') 58 (sp2 ++ (e2 :: (num2' ++ (32 :: lvl :: 47 :: (tag ++ (headerEnd ++ (msg ++ (10 :: 10 :: 91 :: 32 :: more))))))))
      htokc (by decide)
    simpa using this
  rw [hspan1]
  dsimp only
  rw [if_neg (by simp)]
  have hscan2 : scanWhileP (fun c => c = 32) (sp2 ++ (e2 :: (num2' ++ (32 :: lvl :: 47 :: (tag ++ (headerEnd ++ (msg ++ (10 :: 10 :: 91 :: 32 :: more)))))))) = some (e2 :: (num2' ++ (32 :: lvl :: 47 :: (tag ++ (headerEnd ++ (msg ++ (10 :: 10 :: 91 :: 32 :: more))))))) := by
    have := scanWhileP_append (fun c => decide (c = 32)) (sp2) e2 (num2' ++ (32 :: lvl :: 47 :: (tag ++ (headerEnd ++ (msg ++ (10 :: 10 :: 91 :: 32 :: more))))))
      (fun c hc => by simp [hsp2c c hc])
      (by simp [digit_ne_space he2])
    simpa using this
  rw [hscan2]
  dsimp only
  rw [if_neg (by simp [he2])]
  have hspan2 : spanScan isDigitB (e2 :: (num2' ++ (32 :: lvl :: 47 :: (tag ++ (headerEnd ++ (msg ++ (10 :: 10 :: 91 :: 32 :: more))))))) =
      some (e2 :: num2', (32 :: lvl :: 47 :: (tag ++ (headerEnd ++ (msg ++ (10 :: 10 :: 91 :: 32 :: more)))))) := by
    have := spanScan_append isDigitB (e2 :: num2') 32
      (lvl :: 47 :: (tag ++ (headerEnd ++ (msg ++ (10 :: 10 :: 91 :: 32 :: more))))) hnum2c (by decide)
    simpa using this
  rw [hspan2]
  dsimp only
  rw [if_neg (by decide)]
  rw [if_pos (by simp only [hnotall]; exact Bool.false_ne_true)]

/-- Claim C4: in the text log decoder's header parsing, a first
colon-terminated token that is followed (after optional spaces) by a second
colon-terminated numeric token becomes the uid (as a string) with the second
token as pid; when no such second colon-terminated numeric token follows,
the first token must itself be fully numeric and becomes the pid with no
uid, and a non-numeric first token in that position sends the decoder into
error recovery instead. -/
theorem C4_uid_pid_disambiguation :
    (∀ ts sp tok1 sp2 num2 sp3 num3 tag msg more : Bytes, ∀ lvl : Nat,
      chronoOK ts = true → sp ≠ [] → (∀ c ∈ sp, c = 32) →
      tok1 ≠ [] → (∀ c ∈ tok1, isWordB c = true) →
      (∀ c ∈ sp2, c = 32) →
      num2 ≠ [] → (∀ c ∈ num2, isDigitB c = true) →
      digitsToNat num2 < 4294967296 →
      (∀ c ∈ sp3, c = 32) →
      num3 ≠ [] → (∀ c ∈ num3, isDigitB c = true) →
      digitsToNat num3 < 4294967296 →
      21 ≤ more.length →
      (∀ k < tag.length,
        (((tag ++ (headerEnd ++ (msg ++ (10 :: 10 :: 91 :: 32 :: more))))).drop k).take 3 ≠ headerEnd) →
      (∀ k < msg.length, resyncHitB (((msg ++ (10 :: 10 :: 91 :: 32 :: more))).drop k) = false) →
      LogcatStringDecoder.decode ⟨false, []⟩ (strBytes "[ " ++ (ts ++ (sp ++ (tok1 ++ (58 :: (sp2 ++ (num2 ++ (58 :: (sp3 ++ (num3 ++ (32 :: lvl :: 47 :: (tag ++ (headerEnd ++ (msg ++ (10 :: 10 :: 91 :: 32 :: more))))))))))))))) =
        .item (.LogMessage
          { timestamp := ts,
            uid := some (utf8LossyDecode tok1),
            pid := digitsToNat num2,
            tid := digitsToNat num3,
            level := levelOfChar lvl,
            tag := trimCp (utf8LossyDecode tag),
            message := msg })
          ⟨false, []⟩ (91 :: 32 :: more)) ∧
    (∀ ts sp tok1 sp2 num2 tag msg more : Bytes, ∀ lvl : Nat,
      chronoOK ts = true → sp ≠ [] → (∀ c ∈ sp, c = 32) →
      tok1 ≠ [] → (∀ c ∈ tok1, isDigitB c = true) →
      digitsToNat tok1 < 4294967296 →
      (∀ c ∈ sp2, c = 32) →
      num2 ≠ [] → (∀ c ∈ num2, isDigitB c = true) →
      digitsToNat num2 < 4294967296 →
      21 ≤ more.length →
      (∀ k < tag.length,
        (((tag ++ (headerEnd ++ (msg ++ (10 :: 10 :: 91 :: 32 :: more))))).drop k).take 3 ≠ headerEnd) →
      (∀ k < msg.length, resyncHitB (((msg ++ (10 :: 10 :: 91 :: 32 :: more))).drop k) = false) →
      LogcatStringDecoder.decode ⟨false, []⟩ (strBytes "[ " ++ (ts ++ (sp ++ (tok1 ++ (58 :: (sp2 ++ (num2 ++ (32 :: lvl :: 47 :: (tag ++ (headerEnd ++ (msg ++ (10 :: 10 :: 91 :: 32 :: more)))))))))))) =
        .item (.LogMessage
          { timestamp := ts,
            uid := none,
            pid := digitsToNat tok1,
            tid := digitsToNat num2,
            level := levelOfChar lvl,
            tag := trimCp (utf8LossyDecode tag),
            message := msg })
          ⟨false, []⟩ (91 :: 32 :: more)) ∧
    (∀ ts sp tok1 sp2 num2 tag msg more : Bytes, ∀ lvl : Nat,
      chronoOK ts = true → sp ≠ [] → (∀ c ∈ sp, c = 32) →
      tok1 ≠ [] → (∀ c ∈ tok1, isWordB c = true) →
      tok1.all isDigitB = false →
      (∀ c ∈ sp2, c = 32) →
      num2 ≠ [] → (∀ c ∈ num2, isDigitB c = true) →
      21 ≤ more.length →
      LogcatStringDecoder.decode ⟨false, []⟩ (strBytes "[ " ++ (ts ++ (sp ++ (tok1 ++ (58 :: (sp2 ++ (num2 ++ (32 :: lvl :: 47 :: (tag ++ (headerEnd ++ (msg ++ (10 :: 10 :: 91 :: 32 :: more)))))))))))) =
        LogcatStringDecoder.enter_error_state ⟨false, []⟩ (strBytes "[ " ++ (ts ++ (sp ++ (tok1 ++ (58 :: (sp2 ++ (num2 ++ (32 :: lvl :: 47 :: (tag ++ (headerEnd ++ (msg ++ (10 :: 10 :: 91 :: 32 :: more))))))))))))) :=
  ⟨fun ts sp tok1 sp2 num2 sp3 num3 tag msg more lvl
      h1 h2 h3 h4 h5 h6 h7 h8 h9 hA hB hC hD hE hF hG =>
    decode_log_uid_case ts sp tok1 sp2 num2 sp3 num3 tag msg more lvl
      h1 h2 h3 h4 h5 h6 h7 h8 h9 hA hB hC hD hE hF hG,
  fun ts sp tok1 sp2 num2 tag msg more lvl
      h1 h2 h3 h4 h5 h6 h7 h8 h9 hA hB hC hD =>
    decode_log_pid_case ts sp tok1 sp2 num2 tag msg more lvl
      h1 h2 h3 h4 h5 h6 h7 h8 h9 hA hB hC hD,
  fun ts sp tok1 sp2 num2 tag msg more lvl
      h1 h2 h3 h4 h5 h6 h7 h8 h9 hA =>
    decode_log_nonnumeric_case ts sp tok1 sp2 num2 tag msg more lvl
      h1 h2 h3 h4 h5 h6 h7 h8 h9 hA⟩

/-- Witness for C4 at a concrete header: uid token "root", pid 123, tid 456,
level I, tag "tagx", message "hello". -/
theorem C4_uid_pid_witness :
    LogcatStringDecoder.decode ⟨false, []⟩
      (strBytes "[ " ++ (strBytes "2022-11-04 00:50:26.234185959 +0000" ++
        ([32] ++ (strBytes "root" ++ (58 :: ([32] ++ (strBytes "123" ++
        (58 :: ([32] ++ (strBytes "456" ++ (32 :: 73 :: 47 ::
        (strBytes "tagx" ++ (headerEnd ++ (strBytes "hello" ++
        (10 :: 10 :: 91 :: 32 :: List.replicate 21 97))))))))))))))) =
      .item (.LogMessage
        { timestamp := strBytes "2022-11-04 00:50:26.234185959 +0000",
          uid := some (utf8LossyDecode (strBytes "root")),
          pid := digitsToNat (strBytes "123"),
          tid := digitsToNat (strBytes "456"),
          level := levelOfChar 73,
          tag := trimCp (utf8LossyDecode (strBytes "tagx")),
          message := strBytes "hello" })
        ⟨false, []⟩ (91 :: 32 :: List.replicate 21 97) :=
  C4_uid_pid_disambiguation.1
    (strBytes "2022-11-04 00:50:26.234185959 +0000") [32] (strBytes "root")
    [32] (strBytes "123") [32] (strBytes "456") (strBytes "tagx")
    (strBytes "hello") (List.replicate 21 97) 73
    (by decide) (by decide) (by decide) (by decide) (by decide) (by decide)
    (by decide) (by decide) (by decide) (by decide) (by decide) (by decide)
    (by decide) (by decide) (by decide) (by decide)
